import Mathlib

/-!
Verification of the provider-rotation mailer in `src/mailer.py`.

The Python module is shallowly embedded: environment variables become a
function `Env`, wall-clock readings (response times) are supplied by an
oracle, and the network senders are abstracted by an oracle giving each
attempt's outcome.  Timestamps (`datetime.now().isoformat()`) and the
`last_used` field are not modelled: no claim mentions them.  Python floats
are modelled by `ℚ` (exact arithmetic; the comparisons in the code involve
small counters where rounding cannot flip them).
-/

/-- The process environment: `os.getenv`. -/
def Env : Type := String → Option String

/-- Python truthiness of `os.getenv`'s result: `None` and `""` are falsy. -/
def truthy : Option String → Option String
  | some s => if s = "" then none else some s
  | none => none

/-- Model of Python `int(s)` on a string: optional sign after trimming,
then decimal digits.  Returns `none` where Python raises `ValueError`. -/
def parsePyInt (s : String) : Option Int :=
  let t := s.trim
  if t.startsWith "-" then ((t.drop 1).toNat?).map (fun n => -(n : Int))
  else if t.startsWith "+" then ((t.drop 1).toNat?).map (fun n => (n : Int))
  else t.toNat?.map (fun n => (n : Int))

/-- One entry of `PROVIDERS_CONFIG` (`src/mailer.py` lines 127-195). -/
structure ProviderCfg where
  type : String
  env_key : Option String := none
  api_key_env : Option String := none
  api_secret_env : Option String := none
  domain_env : Option String := none
  api_url : Option String := none
  api_url_template : Option String := none
  host_env : Option String := none
  port_env : Option String := none
  user_env : Option String := none
  pass_env : Option String := none
  priority : Nat := 99
deriving DecidableEq

/-- `PROVIDERS_CONFIG["Brevo"]`. -/
def brevoCfg : ProviderCfg :=
  { type := "api", env_key := some "BREVO_API_KEY",
    api_url := some "https://api.brevo.com/v3/smtp/email", priority := 1 }

/-- `PROVIDERS_CONFIG["SendGrid"]`. -/
def sendgridCfg : ProviderCfg :=
  { type := "api", env_key := some "SENDGRID_API_KEY",
    api_url := some "https://api.sendgrid.com/v3/mail/send", priority := 1 }

/-- `PROVIDERS_CONFIG["Mailgun"]`. -/
def mailgunCfg : ProviderCfg :=
  { type := "api", env_key := some "MAILGUN_API_KEY",
    domain_env := some "MAILGUN_DOMAIN",
    api_url_template := some "https://api.mailgun.net/v3/{domain}/messages",
    priority := 2 }

/-- `PROVIDERS_CONFIG["MailerSend"]`. -/
def mailersendCfg : ProviderCfg :=
  { type := "api", env_key := some "MAILERSEND_API_KEY",
    api_url := some "https://api.mailersend.com/v1/email", priority := 2 }

/-- `PROVIDERS_CONFIG["Mailjet"]`. -/
def mailjetCfg : ProviderCfg :=
  { type := "api", api_key_env := some "MAILJET_API_KEY",
    api_secret_env := some "MAILJET_SECRET",
    api_url := some "https://api.mailjet.com/v3.1/send", priority := 3 }

/-- `PROVIDERS_CONFIG["ElasticEmail"]`. -/
def elasticCfg : ProviderCfg :=
  { type := "api", env_key := some "ELASTIC_API_KEY",
    api_url := some "https://api.elasticemail.com/v2/email/send", priority := 3 }

/-- `PROVIDERS_CONFIG["Postmark"]`. -/
def postmarkCfg : ProviderCfg :=
  { type := "api", env_key := some "POSTMARK_API_KEY",
    api_url := some "https://api.postmarkapp.com/email", priority := 2 }

/-- `PROVIDERS_CONFIG["SparkPost"]`. -/
def sparkpostCfg : ProviderCfg :=
  { type := "api", env_key := some "SPARKPOST_API_KEY",
    api_url := some "https://api.sparkpost.com/api/v1/transmissions", priority := 3 }

/-- `PROVIDERS_CONFIG["SMTP-Gmail"]`. -/
def smtpGmailCfg : ProviderCfg :=
  { type := "smtp", host_env := some "SMTP_GMAIL_HOST",
    port_env := some "SMTP_GMAIL_PORT", user_env := some "SMTP_GMAIL_USER",
    pass_env := some "SMTP_GMAIL_PASS", priority := 99 }

/-- `PROVIDERS_CONFIG["SMTP-Outlook"]`. -/
def smtpOutlookCfg : ProviderCfg :=
  { type := "smtp", host_env := some "SMTP_OUTLOOK_HOST",
    port_env := some "SMTP_OUTLOOK_PORT", user_env := some "SMTP_OUTLOOK_USER",
    pass_env := some "SMTP_OUTLOOK_PASS", priority := 99 }

/-- `PROVIDERS_CONFIG`, in dict insertion order. -/
def providersConfig : List (String × ProviderCfg) :=
  [ ("Brevo", brevoCfg), ("SendGrid", sendgridCfg), ("Mailgun", mailgunCfg),
    ("MailerSend", mailersendCfg), ("Mailjet", mailjetCfg),
    ("ElasticEmail", elasticCfg), ("Postmark", postmarkCfg),
    ("SparkPost", sparkpostCfg), ("SMTP-Gmail", smtpGmailCfg),
    ("SMTP-Outlook", smtpOutlookCfg) ]

/-- The credential bundle built by `provider_credentials`. -/
structure Creds where
  name : String
  type : String
  priority : Nat
  enabled : Bool
  api_key : Option String := none
  api_secret : Option String := none
  domain : Option String := none
  api_url : Option String := none
  host : Option String := none
  port : Option Int := none
  user : Option String := none
  password : Option String := none
deriving DecidableEq

def configLookup (name : String) : Option ProviderCfg :=
  providersConfig.lookup name

/-- `if "env_key" in cfg: ...` (lines 214-219). -/
def stepEnvKey (cfg : ProviderCfg) (env : Env) (c : Creds) : Creds :=
  match cfg.env_key with
  | none => c
  | some k =>
    match truthy (env k) with
    | some v => { c with api_key := some v }
    | none => { c with enabled := false }

/-- `if "api_key_env" in cfg and "api_secret_env" in cfg: ...` (lines 221-228). -/
def stepKeyPair (cfg : ProviderCfg) (env : Env) (c : Creds) : Creds :=
  match cfg.api_key_env, cfg.api_secret_env with
  | some kk, some ks =>
    match truthy (env kk), truthy (env ks) with
    | some a, some b => { c with api_key := some a, api_secret := some b }
    | _, _ => { c with enabled := false }
  | _, _ => c

/-- `if "domain_env" in cfg: ...` (lines 230-235). -/
def stepDomain (cfg : ProviderCfg) (env : Env) (c : Creds) : Creds :=
  match cfg.domain_env with
  | none => c
  | some k =>
    match truthy (env k) with
    | some v => { c with domain := some v }
    | none => { c with enabled := false }

/-- Build the final API URL (lines 237-241); `.format(domain=...)` is
substitution of the resolved domain into the template. -/
def stepUrl (cfg : ProviderCfg) (c : Creds) : Creds :=
  match cfg.api_url_template, c.domain with
  | some tmpl, some d => { c with api_url := some (tmpl.replace "{domain}" d) }
  | _, _ => { c with api_url := cfg.api_url }

/-- The body of the `try:` block of `provider_credentials` (lines 211-258).
The only reachable raise point is `int(os.getenv(...))` on the SMTP path,
modelled as `Except.error`. -/
def credsBody (name : String) (cfg : ProviderCfg) (env : Env) : Except String Creds :=
  let base : Creds :=
    { name := name, type := cfg.type, priority := cfg.priority, enabled := true }
  if cfg.type = "api" then
    .ok (stepUrl cfg (stepDomain cfg env (stepKeyPair cfg env (stepEnvKey cfg env base))))
  else if cfg.type = "smtp" then
    let host := env (cfg.host_env.getD "")
    match env (cfg.port_env.getD "587") with
    | none => .error "TypeError: int() argument is None"
    | some ps =>
      match parsePyInt ps with
      | none => .error "ValueError: invalid literal for int()"
      | some port =>
        let user := env (cfg.user_env.getD "")
        let password := env (cfg.pass_env.getD "")
        match truthy host, truthy user, truthy password with
        | some h, some u, some pw =>
          .ok { base with host := some h, port := some port,
                          user := some u, password := some pw }
        | _, _, _ => .ok { base with enabled := false }
  else .ok base

/-- `provider_credentials` for a known provider: the `try/except` wrapper —
on any exception the bundle is returned with `enabled = False` (lines 260-262). -/
def resolve_creds (name : String) (cfg : ProviderCfg) (env : Env) : Creds :=
  match credsBody name cfg env with
  | .ok c => c
  | .error _ =>
    { name := name, type := cfg.type, priority := cfg.priority, enabled := false }

/-- `provider_credentials` (lines 198-264).  An unknown name yields `none`,
modelling the empty dict the source returns (falsy `enabled`). -/
def provider_credentials (name : String) (env : Env) : Option Creds :=
  (configLookup name).map (fun cfg => resolve_creds name cfg env)

/-- The environment keys a config gates `enabled` on. -/
def requiredEnvKeys (cfg : ProviderCfg) : List String :=
  if cfg.type = "api" then
    cfg.env_key.toList ++
      (match cfg.api_key_env, cfg.api_secret_env with
        | some a, some b => [a, b]
        | _, _ => []) ++
      cfg.domain_env.toList
  else if cfg.type = "smtp" then
    [cfg.host_env.getD "", cfg.user_env.getD "", cfg.pass_env.getD ""]
  else []

/-- An environment key resolves to a non-empty value. -/
def resolvesNonEmpty (env : Env) (k : String) : Prop :=
  ∃ s, env k = some s ∧ s ≠ ""

/-- `Mailer._load_providers` (lines 507-518): keep, in registry order, the
providers whose credential bundle is enabled. -/
def load_providers (env : Env) : List (String × Creds) :=
  providersConfig.filterMap (fun e =>
    match provider_credentials e.1 env with
    | some c => if c.enabled then some (e.1, c) else none
    | none => none)

/-- `ProviderHealth` (lines 66-76).  `last_used` (a wall-clock datetime) is
not modelled. -/
structure ProviderHealth where
  name : String
  enabled : Bool := true
  success_count : Nat := 0
  failure_count : Nat := 0
  average_response_time : ℚ := 0
  consecutive_failures : Nat := 0
  last_error : String := ""
deriving DecidableEq

/-- `ProviderHealth.success_rate` (lines 78-80). -/
def ProviderHealth.success_rate (h : ProviderHealth) : ℚ :=
  let total := h.success_count + h.failure_count
  if total > 0 then (h.success_count : ℚ) / (total : ℚ) else 0

/-- `ProviderHealth.should_use` (lines 82-90). -/
def ProviderHealth.should_use (h : ProviderHealth) : Bool :=
  if !h.enabled then false
  else if h.consecutive_failures ≥ 3 then false
  else if h.success_rate < 1/2 ∧ h.success_count + h.failure_count > 10 then false
  else true

/-- The body of `Mailer._update_provider_health` (lines 541-561) acting on
one `ProviderHealth` record. -/
def update_provider_health (h : ProviderHealth) (success : Bool) (response_time : ℚ)
    (error : String) : ProviderHealth :=
  if success then
    let sc := h.success_count + 1
    let total_requests : ℚ := (sc : ℚ) + (h.failure_count : ℚ)
    { h with success_count := sc, consecutive_failures := 0,
             average_response_time :=
               (h.average_response_time * (total_requests - 1) + response_time)
                 / total_requests }
  else
    { h with failure_count := h.failure_count + 1,
             consecutive_failures := h.consecutive_failures + 1,
             last_error := error }

/-- `self.provider_health` as an association list in dict insertion order. -/
abbrev HealthMap := List (String × ProviderHealth)

/-- Dictionary read with the same default the source uses when the key is
absent (`ProviderHealth(name=provider)`). -/
def healthOf (hm : HealthMap) (name : String) : ProviderHealth :=
  (hm.lookup name).getD { name := name }

/-- Dictionary write: replace in place, or append a new key (dict semantics). -/
def setHealth (hm : HealthMap) (k : String) (v : ProviderHealth) : HealthMap :=
  if hm.any (fun e => e.1 = k) then
    hm.map (fun e => if e.1 = k then (k, v) else e)
  else hm ++ [(k, v)]

/-- `Mailer._update_provider_health` on the health dictionary: create a fresh
record when absent, then apply the counter update. -/
def updateHealthMap (hm : HealthMap) (provider : String) (success : Bool)
    (response_time : ℚ) (error : String) : HealthMap :=
  setHealth hm provider
    (update_provider_health (healthOf hm provider) success response_time error)

/-- `adjusted_priority = priority - (success_rate * 10)` (line 534). -/
def adjusted_priority (priority : Nat) (h : ProviderHealth) : ℚ :=
  (priority : ℚ) - h.success_rate * 10

/-- Stable insertion into a key-sorted list: an earlier element goes before
later elements with an equal key, matching Python's stable `list.sort`. -/
def insertByKey (x : ℚ × String) : List (ℚ × String) → List (ℚ × String)
  | [] => [x]
  | y :: ys => if x.1 ≤ y.1 then x :: y :: ys else y :: insertByKey x ys

/-- Stable sort on the first component (Python `sort(key=lambda x: x[0])`). -/
def sortByKey (l : List (ℚ × String)) : List (ℚ × String) :=
  l.foldr insertByKey []

/-- `Mailer._get_priority_order` (lines 525-539), over a provider snapshot
and a health dictionary. -/
def get_priority_order (providers : List (String × Creds)) (hm : HealthMap) :
    List String :=
  let withPriority := providers.filterMap (fun e =>
    let h := healthOf hm e.1
    if h.should_use then some (adjusted_priority e.2.priority h, e.1) else none)
  (sortByKey withPriority).map (fun x => x.2)

/-- The mailer state relevant to the claims: provider snapshot, health
dictionary, the cached `providers_order`, and `max_retries`. -/
structure MailerState where
  providers : List (String × Creds)
  provider_health : HealthMap
  providers_order : List String
  max_retries : Nat

/-- Fresh health dictionary (`Mailer._initialize_provider_health`, lines 520-523). -/
def initHealth (providers : List (String × Creds)) : HealthMap :=
  providers.map (fun e => (e.1, ({ name := e.1 } : ProviderHealth)))

/-- `Mailer.__init__` without an explicit `providers_order` argument
(lines 476-505): load providers, initialise health, and cache the
priority order computed from that fresh health. -/
def mkMailer (env : Env) (max_retries : Nat) : MailerState :=
  let providers := load_providers env
  let hm := initHealth providers
  { providers := providers, provider_health := hm,
    providers_order := get_priority_order providers hm,
    max_retries := max_retries }

/-- The keys of `PROVIDER_SENDERS` (lines 436-447). -/
def providerSenders : List String :=
  [ "Brevo", "SendGrid", "Mailgun", "MailerSend", "Mailjet", "ElasticEmail",
    "Postmark", "SparkPost", "SMTP-Gmail", "SMTP-Outlook" ]

/-- `PROVIDER_SENDERS.get(provider)` is not `None`. -/
def hasSender (p : String) : Bool := providerSenders.contains p

/-- Outcome of one call of a sender function: either it returns the
`(success, info, message_id)` triple, or it raises.  `elapsed` is the
wall-clock `time.time() - start_time` observed around the call. -/
inductive AttemptOutcome where
  | ok (success : Bool) (info : String) (messageId : String) (elapsed : ℚ)
  | exn (msg : String) (elapsed : ℚ)
deriving DecidableEq

/-- Attempt oracle for one `send_single` call: the outcome the network
produces for a provider's n-th attempt (0-based) in this send. -/
abbrev Oracle := String → Nat → AttemptOutcome

/-- Whether the attempt returned `success=True`. -/
def AttemptOutcome.isSuccess : AttemptOutcome → Bool
  | .ok s _ _ _ => s
  | .exn _ _ => false

/-- `SendResult` (lines 44-64); the wall-clock `timestamp` string is not
modelled. -/
structure SendResult where
  success : Bool
  provider : String
  recipient : String
  message_id : String := ""
  error : String := ""
  response_time : ℚ := 0
deriving DecidableEq

/-- Ghost record of one executed attempt of the inner retry loop of
`send_single`: which provider, the 0-based attempt index, whether
`should_use()` held for that provider when the attempt started, whether the
attempt succeeded, and the backoff sleep performed after it (`2**attempt`
seconds when the attempt failed and retries remain, line 630/642). -/
structure AttemptRec where
  provider : String
  attempt : Nat
  shouldUseAtAttempt : Bool
  success : Bool
  backoffSleep : Option ℚ
deriving DecidableEq

/-- Result of walking one provider's retry loop. -/
structure TryOut where
  result : Option SendResult
  health : HealthMap
  lastError : String
  trace : List AttemptRec

/-- The inner retry loop `for attempt in range(self.max_retries + 1)`
(lines 604-642) for one provider.  `attempt` is the current index and
`remaining` the number of iterations left (`max_retries + 1` at entry). -/
def tryProvider (oracle : Oracle) (to_email : String) (provider : String)
    (max_retries : Nat) (hm : HealthMap) (lastError : String)
    (attempt : Nat) : (remaining : Nat) → TryOut
  | 0 => { result := none, health := hm, lastError := lastError, trace := [] }
  | remaining + 1 =>
    let su := (healthOf hm provider).should_use
    match oracle provider attempt with
    | .ok success info messageId elapsed =>
      let hm2 := updateHealthMap hm provider success elapsed info
      if success then
        { result := some { success := true, provider := provider,
                           recipient := to_email, message_id := messageId,
                           response_time := elapsed },
          health := hm2, lastError := lastError,
          trace := [{ provider := provider, attempt := attempt,
                      shouldUseAtAttempt := su, success := true,
                      backoffSleep := none }] }
      else
        let le := provider ++ ": " ++ info
        let sleep := if attempt < max_retries then some ((2 : ℚ) ^ attempt) else none
        let rest := tryProvider oracle to_email provider max_retries hm2 le
          (attempt + 1) remaining
        { rest with
          trace := { provider := provider, attempt := attempt,
                     shouldUseAtAttempt := su, success := false,
                     backoffSleep := sleep } :: rest.trace }
    | .exn msg elapsed =>
      let hm2 := updateHealthMap hm provider false elapsed msg
      let le := provider ++ ": " ++ msg
      let sleep := if attempt < max_retries then some ((2 : ℚ) ^ attempt) else none
      let rest := tryProvider oracle to_email provider max_retries hm2 le
        (attempt + 1) remaining
      { rest with
        trace := { provider := provider, attempt := attempt,
                   shouldUseAtAttempt := su, success := false,
                   backoffSleep := sleep } :: rest.trace }

/-- Result of a whole `send_single` call: the returned `SendResult`, the
final health dictionary, and the ghost attempt trace. -/
structure SingleOutcome where
  result : SendResult
  health : HealthMap
  trace : List AttemptRec

/-- The outer provider loop of `send_single` (lines 589-651): skip providers
failing `should_use()` or lacking a sender function, run the retry loop,
return the first success, and fall through to the `provider="all"` failure
result when every provider is exhausted. -/
def sendLoop (oracle : Oracle) (to_email : String) (max_retries : Nat) :
    List String → HealthMap → String → SingleOutcome
  | [], hm, lastError =>
    { result := { success := false, provider := "all", recipient := to_email,
                  error := lastError },
      health := hm, trace := [] }
  | p :: ps, hm, lastError =>
    if !(healthOf hm p).should_use then
      sendLoop oracle to_email max_retries ps hm lastError
    else if !hasSender p then
      sendLoop oracle to_email max_retries ps hm lastError
    else
      let t := tryProvider oracle to_email p max_retries hm lastError 0
        (max_retries + 1)
      match t.result with
      | some res => { result := res, health := t.health, trace := t.trace }
      | none =>
        let rest := sendLoop oracle to_email max_retries ps t.health t.lastError
        { rest with trace := t.trace ++ rest.trace }

/-- The provider trial order of one `send_single` call (lines 582-587):
a truthy preferred provider present in the snapshot goes first, followed by
the cached order without it; otherwise the cached order. -/
def providersToTry (m : MailerState) (preferred : Option String) : List String :=
  match preferred with
  | some p =>
    if p ≠ "" ∧ m.providers.any (fun e => e.1 = p) then
      p :: m.providers_order.filter (fun q => q ≠ p)
    else m.providers_order
  | none => m.providers_order

/-- `Mailer.send_single` (lines 568-651).  The rate-limiter wait is a pure
timing effect and is not modelled. -/
def send_single (m : MailerState) (to_email : String) (preferred : Option String)
    (oracle : Oracle) : SingleOutcome :=
  sendLoop oracle to_email m.max_retries (providersToTry m preferred)
    m.provider_health ""

/-- A send applied to the mailer state: `send_single` mutates
`self.provider_health` in place. -/
def applySend (m : MailerState) (to_email : String) (preferred : Option String)
    (oracle : Oracle) : MailerState :=
  { m with provider_health := (send_single m to_email preferred oracle).health }

/-- A bulk recipient: `{"email": ..., "name": ...}`. -/
structure Recipient where
  email : String
  name : String := ""
deriving DecidableEq

/-- What `future.result()` yields for one recipient in `send_bulk`
(lines 695-711): either the `SendResult` produced by `_send_single_sync`
(which itself catches exceptions from `asyncio.run` and returns a
`provider="unknown"` failure), or an exception raised before a
`SendResult` existed (e.g. personalization on a malformed recipient),
caught by `send_bulk` itself. -/
inductive RecipientOutcome where
  | result (r : SendResult)
  | raised (msg : String)
deriving DecidableEq

/-- The batch partition `range(0, total, batch_size)` (line 673).  Python
raises `ValueError` on a zero step; `send_bulk` guards that case before
this function is used. -/
def batches (bs : Nat) (l : List α) : List (List α) :=
  if bs = 0 ∨ l.isEmpty then []
  else l.take bs :: batches bs (l.drop bs)
termination_by l.length
decreasing_by
  rename_i h
  push_neg at h
  have h1 : 0 < bs := Nat.pos_of_ne_zero h.1
  have h2 : 0 < l.length := by
    cases l with
    | nil => simp at h
    | cons a t => simp
  simp only [List.length_drop]
  omega

/-- `BulkSendReport` (lines 733-740); the wall-clock `completed_at` string
is not modelled. -/
structure BulkReport where
  sent : List SendResult
  failed : List SendResult
  total : Nat
  success_rate : ℚ
  providers_used : List String
deriving DecidableEq

/-- Sorting one completed future into `sent`/`failed` (lines 697-711):
a returned `SendResult` goes by its `success` flag; a raised exception is
converted to a `provider="unknown"` failure entry. -/
def processRecipient (r : Recipient) (o : RecipientOutcome) : SendResult :=
  match o with
  | .result res => res
  | .raised msg =>
    { success := false, provider := "unknown", recipient := r.email,
      error := "unexpected_error: " ++ msg }

/-- Accumulate one recipient's outcome into the `(sent, failed)` pair. -/
def bulkStep (outcome : Nat → RecipientOutcome)
    (acc : List SendResult × List SendResult) (e : Nat × Recipient) :
    List SendResult × List SendResult :=
  let res := processRecipient e.2 (outcome e.1)
  if res.success then (acc.1 ++ [res], acc.2) else (acc.1, acc.2 ++ [res])

/-- `Mailer.send_bulk` (lines 653-740), with each recipient's completed
future abstracted by `outcome` (indexed by the recipient's position, so
duplicate recipients are distinguished).  Completion order within a batch
is modelled as submission order; the claims proved below concern counts
and membership, which every completion order preserves.  `none` models the
`ValueError` that `range(0, total, 0)` raises for a zero batch size. -/
def send_bulk (recipients : List Recipient) (outcome : Nat → RecipientOutcome)
    (batch_size : Nat) : Option BulkReport :=
  if batch_size = 0 then none
  else
    let indexed := recipients.enum
    let acc := (batches batch_size indexed).foldl
      (fun acc b => b.foldl (bulkStep outcome) acc) ([], [])
    let total := recipients.length
    some { sent := acc.1, failed := acc.2, total := total,
           success_rate :=
             if total > 0 then ((acc.1.length : ℚ) / (total : ℚ)) * 100 else 0,
           providers_used := (acc.1.map (fun r => r.provider)).dedup }

/-- The first provider in the list that `send_single`'s outer loop would
not skip: it passes `should_use()` and has a sender function. -/
def firstEligible (hm : HealthMap) : List String → Option String
  | [] => none
  | p :: ps =>
    if (healthOf hm p).should_use ∧ hasSender p then some p
    else firstEligible hm ps

/-- The part of a `ProviderHealth` record that `should_use` and the counter
updates can observe: name, enabled flag, success/failure counts and the
consecutive-failure counter (everything except the average latency and the
last error text). -/
def healthCore (h : ProviderHealth) : String × Bool × Nat × Nat × Nat :=
  (h.name, h.enabled, h.success_count, h.failure_count, h.consecutive_failures)

/-- Two health dictionaries agreeing on every entry's observable core. -/
def coreEq (hm hm' : HealthMap) : Prop :=
  hm.map (fun e => (e.1, healthCore e.2)) = hm'.map (fun e => (e.1, healthCore e.2))

/- ===== Concrete fixtures used by counterexamples and witnesses ===== -/

/-- Environment configuring only Brevo. -/
def envB : Env := fun k => if k = "BREVO_API_KEY" then some "bk" else none

/-- Environment configuring Brevo and Postmark (static priorities 1 and 2). -/
def envBP : Env := fun k =>
  if k = "BREVO_API_KEY" then some "bk"
  else if k = "POSTMARK_API_KEY" then some "pk"
  else none

/-- Environment configuring nothing: zero providers load. -/
def envNone : Env := fun _ => none

/-- Every attempt is delivered instantly. -/
def okOracle : Oracle := fun _ _ => .ok true "sent" "mid" 0

/-- Every attempt fails with an HTTP 500 error string. -/
def failOracle : Oracle := fun _ _ => .ok false "500: server error" "mid" 0

/-- Every attempt is refused with HTTP 429 (the sender functions surface a
non-2xx response as `success=False` with the status code in `info`). -/
def oracle429 : Oracle := fun _ _ => .ok false "429: Too Many Requests" "mid" 0

/-- Brevo always answers HTTP 400 (a non-retryable client error per the
spec); Postmark always delivers. -/
def oracle400 : Oracle := fun p _ =>
  if p = "Brevo" then .ok false "400: Bad Request" "mid" 0
  else .ok true "sent" "mid" 0

/-- A fresh mailer holding only Brevo, `max_retries = 3`. -/
def mB : MailerState := mkMailer envB 3

/-- A fresh mailer holding Brevo and Postmark, `max_retries = 3`. -/
def mBP : MailerState := mkMailer envBP 3

/-- A mailer constructed with zero configured providers. -/
def mNone : MailerState := mkMailer envNone 3

/-- `mBP` after ten successful sends routed to Postmark: Postmark's live
success rate is 1, Brevo's is still 0. -/
def mBP10 : MailerState :=
  (List.range 10).foldl
    (fun m _ => applySend m "a@example.com" (some "Postmark") okOracle) mBP

/-- The `provider="all"` failure `SendResult` that `send_single` returns when
the provider loop falls through without a success. -/
def allExhausted (to_email : String) (lastError : String) : SendResult :=
  { success := false, provider := "all", recipient := to_email,
    error := lastError }

/-- Brevo always answers HTTP 500; every other provider delivers.  The
per-attempt success pattern is identical to `oracle400`. -/
def oracle500B : Oracle := fun p _ =>
  if p = "Brevo" then .ok false "500: server error" "x" 7
  else .ok true "ok" "y" 1

/-- Environment configuring Mailgun (API key and domain). -/
def envM : Env := fun k =>
  if k = "MAILGUN_API_KEY" then some "mk"
  else if k = "MAILGUN_DOMAIN" then some "mg.example.com"
  else none

unseal Rat.mul Rat.inv Rat.add Rat.sub

/-! ### Lemmas about the inner retry loop -/

theorem tryProvider_trace_length (oracle : Oracle) (to_email provider : String)
    (max_retries : Nat) :
    ∀ (remaining : Nat) (hm : HealthMap) (lastError : String) (attempt : Nat),
      (tryProvider oracle to_email provider max_retries hm lastError attempt
        remaining).trace.length ≤ remaining := by
  intro remaining
  induction remaining with
  | zero => intro hm lastError attempt; simp [tryProvider]
  | succ n ih =>
    intro hm lastError attempt
    cases ho : oracle provider attempt with
    | ok success info messageId elapsed =>
      cases success
      · simp only [tryProvider, ho, Bool.false_eq_true, if_false, List.length_cons]
        exact Nat.succ_le_succ (ih _ _ _)
      · simp [tryProvider, ho]
    | exn msg elapsed =>
      simp only [tryProvider, ho, List.length_cons]
      exact Nat.succ_le_succ (ih _ _ _)

theorem tryProvider_trace_provider (oracle : Oracle) (to_email provider : String)
    (max_retries : Nat) :
    ∀ (remaining : Nat) (hm : HealthMap) (lastError : String) (attempt : Nat),
      ∀ r ∈ (tryProvider oracle to_email provider max_retries hm lastError attempt
        remaining).trace, r.provider = provider := by
  intro remaining
  induction remaining with
  | zero => intro hm lastError attempt r hr; simp [tryProvider] at hr
  | succ n ih =>
    intro hm lastError attempt r hr
    cases ho : oracle provider attempt with
    | ok success info messageId elapsed =>
      cases success
      · simp [tryProvider, ho] at hr
        rcases hr with hr | hr
        · subst hr; rfl
        · exact ih _ _ _ r hr
      · simp [tryProvider, ho] at hr
        subst hr; rfl
    | exn msg elapsed =>
      simp [tryProvider, ho] at hr
      rcases hr with hr | hr
      · subst hr; rfl
      · exact ih _ _ _ r hr

/-- Every record of the retry loop carries an attempt index at least the
starting index, and a record at exactly the starting index observed
`should_use()` of the entry health. -/
theorem tryProvider_trace_attempt (oracle : Oracle) (to_email provider : String)
    (max_retries : Nat) :
    ∀ (remaining : Nat) (hm : HealthMap) (lastError : String) (attempt : Nat),
      ∀ r ∈ (tryProvider oracle to_email provider max_retries hm lastError attempt
        remaining).trace,
        attempt ≤ r.attempt ∧
        (r.attempt = attempt →
          r.shouldUseAtAttempt = (healthOf hm provider).should_use) := by
  intro remaining
  induction remaining with
  | zero => intro hm lastError attempt r hr; simp [tryProvider] at hr
  | succ n ih =>
    intro hm lastError attempt r hr
    cases ho : oracle provider attempt with
    | ok success info messageId elapsed =>
      cases success
      · simp [tryProvider, ho] at hr
        rcases hr with hr | hr
        · subst hr; exact ⟨Nat.le_refl _, fun _ => rfl⟩
        · have h2 := ih _ _ _ r hr
          exact ⟨Nat.le_of_succ_le h2.1, fun he => by omega⟩
      · simp [tryProvider, ho] at hr
        subst hr; exact ⟨Nat.le_refl _, fun _ => rfl⟩
    | exn msg elapsed =>
      simp [tryProvider, ho] at hr
      rcases hr with hr | hr
      · subst hr; exact ⟨Nat.le_refl _, fun _ => rfl⟩
      · have h2 := ih _ _ _ r hr
        exact ⟨Nat.le_of_succ_le h2.1, fun he => by omega⟩

/-- The backoff sleep recorded for each attempt is `2^attempt` seconds
exactly when the attempt failed and retries remain, and no sleep otherwise —
independent of the failure's status code or exception text. -/
theorem tryProvider_trace_backoff (oracle : Oracle) (to_email provider : String)
    (max_retries : Nat) :
    ∀ (remaining : Nat) (hm : HealthMap) (lastError : String) (attempt : Nat),
      ∀ r ∈ (tryProvider oracle to_email provider max_retries hm lastError attempt
        remaining).trace,
        r.backoffSleep = if r.success then none
          else if r.attempt < max_retries then some ((2 : ℚ) ^ r.attempt)
          else none := by
  intro remaining
  induction remaining with
  | zero => intro hm lastError attempt r hr; simp [tryProvider] at hr
  | succ n ih =>
    intro hm lastError attempt r hr
    cases ho : oracle provider attempt with
    | ok success info messageId elapsed =>
      cases success
      · simp [tryProvider, ho] at hr
        rcases hr with hr | hr
        · subst hr; simp
        · exact ih _ _ _ r hr
      · simp [tryProvider, ho] at hr
        subst hr; simp
    | exn msg elapsed =>
      simp [tryProvider, ho] at hr
      rcases hr with hr | hr
      · subst hr; simp
      · exact ih _ _ _ r hr

/-- If every attempt against this provider fails, the retry loop exhausts its
whole budget: no success result, and one trace record per iteration. -/
theorem tryProvider_exhausts (oracle : Oracle) (to_email provider : String)
    (max_retries : Nat)
    (hfail : ∀ a, (oracle provider a).isSuccess = false) :
    ∀ (remaining : Nat) (hm : HealthMap) (lastError : String) (attempt : Nat),
      (tryProvider oracle to_email provider max_retries hm lastError attempt
        remaining).result = none ∧
      (tryProvider oracle to_email provider max_retries hm lastError attempt
        remaining).trace.length = remaining := by
  intro remaining
  induction remaining with
  | zero => intro hm lastError attempt; simp [tryProvider]
  | succ n ih =>
    intro hm lastError attempt
    cases ho : oracle provider attempt with
    | ok success info messageId elapsed =>
      cases success
      · simp only [tryProvider, ho, Bool.false_eq_true, if_false, List.length_cons]
        exact ⟨(ih _ _ _).1, by rw [(ih _ _ _).2]⟩
      · have := hfail attempt
        rw [ho] at this
        simp [AttemptOutcome.isSuccess] at this
    | exn msg elapsed =>
      simp only [tryProvider, ho, List.length_cons]
      exact ⟨(ih _ _ _).1, by rw [(ih _ _ _).2]⟩

/-! ### Lemmas about the outer provider loop -/

theorem sendLoop_nil (oracle : Oracle) (to_email : String) (max_retries : Nat)
    (hm : HealthMap) (lastError : String) :
    sendLoop oracle to_email max_retries [] hm lastError =
      { result := { success := false, provider := "all", recipient := to_email,
                    error := lastError },
        health := hm, trace := [] } := rfl

theorem sendLoop_skip_unhealthy (oracle : Oracle) (to_email : String)
    (max_retries : Nat) (p : String) (ps : List String) (hm : HealthMap)
    (lastError : String) (hsu : (healthOf hm p).should_use = false) :
    sendLoop oracle to_email max_retries (p :: ps) hm lastError =
      sendLoop oracle to_email max_retries ps hm lastError := by
  simp [sendLoop, hsu]

theorem sendLoop_skip_nosender (oracle : Oracle) (to_email : String)
    (max_retries : Nat) (p : String) (ps : List String) (hm : HealthMap)
    (lastError : String) (hsu : (healthOf hm p).should_use = true)
    (hsndr : hasSender p = false) :
    sendLoop oracle to_email max_retries (p :: ps) hm lastError =
      sendLoop oracle to_email max_retries ps hm lastError := by
  simp [sendLoop, hsu, hsndr]

theorem sendLoop_tried_success (oracle : Oracle) (to_email : String)
    (max_retries : Nat) (p : String) (ps : List String) (hm : HealthMap)
    (lastError : String) (res : SendResult)
    (hsu : (healthOf hm p).should_use = true) (hsndr : hasSender p = true)
    (ht : (tryProvider oracle to_email p max_retries hm lastError 0
      (max_retries + 1)).result = some res) :
    sendLoop oracle to_email max_retries (p :: ps) hm lastError =
      { result := res,
        health := (tryProvider oracle to_email p max_retries hm lastError 0
          (max_retries + 1)).health,
        trace := (tryProvider oracle to_email p max_retries hm lastError 0
          (max_retries + 1)).trace } := by
  simp only [sendLoop, hsu, hsndr, Bool.not_true, Bool.false_eq_true, if_false, ht]

theorem sendLoop_tried_fail (oracle : Oracle) (to_email : String)
    (max_retries : Nat) (p : String) (ps : List String) (hm : HealthMap)
    (lastError : String)
    (hsu : (healthOf hm p).should_use = true) (hsndr : hasSender p = true)
    (ht : (tryProvider oracle to_email p max_retries hm lastError 0
      (max_retries + 1)).result = none) :
    sendLoop oracle to_email max_retries (p :: ps) hm lastError =
      { result := (sendLoop oracle to_email max_retries ps
          (tryProvider oracle to_email p max_retries hm lastError 0
            (max_retries + 1)).health
          (tryProvider oracle to_email p max_retries hm lastError 0
            (max_retries + 1)).lastError).result,
        health := (sendLoop oracle to_email max_retries ps
          (tryProvider oracle to_email p max_retries hm lastError 0
            (max_retries + 1)).health
          (tryProvider oracle to_email p max_retries hm lastError 0
            (max_retries + 1)).lastError).health,
        trace := (tryProvider oracle to_email p max_retries hm lastError 0
            (max_retries + 1)).trace ++
          (sendLoop oracle to_email max_retries ps
            (tryProvider oracle to_email p max_retries hm lastError 0
              (max_retries + 1)).health
            (tryProvider oracle to_email p max_retries hm lastError 0
              (max_retries + 1)).lastError).trace } := by
  simp only [sendLoop, hsu, hsndr, Bool.not_true, Bool.false_eq_true, if_false, ht]

theorem sendLoop_trace_mem (oracle : Oracle) (to_email : String) (max_retries : Nat) :
    ∀ (ps : List String) (hm : HealthMap) (lastError : String),
      ∀ r ∈ (sendLoop oracle to_email max_retries ps hm lastError).trace,
        r.provider ∈ ps := by
  intro ps
  induction ps with
  | nil => intro hm lastError r hr; simp [sendLoop_nil] at hr
  | cons p ps ih =>
    intro hm lastError r hr
    by_cases hsu : (healthOf hm p).should_use
    · by_cases hsndr : hasSender p
      · cases ht : (tryProvider oracle to_email p max_retries hm lastError 0
            (max_retries + 1)).result with
        | some res =>
          rw [sendLoop_tried_success oracle to_email max_retries p ps hm lastError
            res hsu hsndr ht] at hr
          have := tryProvider_trace_provider oracle to_email p max_retries
            (max_retries + 1) hm lastError 0 r hr
          simp [this]
        | none =>
          rw [sendLoop_tried_fail oracle to_email max_retries p ps hm lastError
            hsu hsndr ht] at hr
          simp only [List.mem_append] at hr
          rcases hr with hr | hr
          · have := tryProvider_trace_provider oracle to_email p max_retries
              (max_retries + 1) hm lastError 0 r hr
            simp [this]
          · exact List.mem_cons_of_mem p (ih _ _ r hr)
      · rw [Bool.not_eq_true] at hsndr
        rw [sendLoop_skip_nosender oracle to_email max_retries p ps hm lastError
          hsu hsndr] at hr
        exact List.mem_cons_of_mem p (ih _ _ r hr)
    · rw [Bool.not_eq_true] at hsu
      rw [sendLoop_skip_unhealthy oracle to_email max_retries p ps hm lastError
        hsu] at hr
      exact List.mem_cons_of_mem p (ih _ _ r hr)

/-- A provider's first attempt (attempt index 0) in a send is only ever made
after the `should_use()` guard passed for it: the guard is evaluated at
provider-selection time. -/
theorem sendLoop_attempt_zero (oracle : Oracle) (to_email : String)
    (max_retries : Nat) :
    ∀ (ps : List String) (hm : HealthMap) (lastError : String),
      ∀ r ∈ (sendLoop oracle to_email max_retries ps hm lastError).trace,
        r.attempt = 0 → r.shouldUseAtAttempt = true := by
  intro ps
  induction ps with
  | nil => intro hm lastError r hr; simp [sendLoop_nil] at hr
  | cons p ps ih =>
    intro hm lastError r hr h0
    by_cases hsu : (healthOf hm p).should_use
    · by_cases hsndr : hasSender p
      · cases ht : (tryProvider oracle to_email p max_retries hm lastError 0
            (max_retries + 1)).result with
        | some res =>
          rw [sendLoop_tried_success oracle to_email max_retries p ps hm lastError
            res hsu hsndr ht] at hr
          have := (tryProvider_trace_attempt oracle to_email p max_retries
            (max_retries + 1) hm lastError 0 r hr).2 h0
          rw [this, hsu]
        | none =>
          rw [sendLoop_tried_fail oracle to_email max_retries p ps hm lastError
            hsu hsndr ht] at hr
          simp only [List.mem_append] at hr
          rcases hr with hr | hr
          · have := (tryProvider_trace_attempt oracle to_email p max_retries
              (max_retries + 1) hm lastError 0 r hr).2 h0
            rw [this, hsu]
          · exact ih _ _ r hr h0
      · rw [Bool.not_eq_true] at hsndr
        rw [sendLoop_skip_nosender oracle to_email max_retries p ps hm lastError
          hsu hsndr] at hr
        exact ih _ _ r hr h0
    · rw [Bool.not_eq_true] at hsu
      rw [sendLoop_skip_unhealthy oracle to_email max_retries p ps hm lastError
        hsu] at hr
      exact ih _ _ r hr h0

/-- With a duplicate-free trial order, a single provider contributes at most
`max_retries + 1` attempts to a send's trace. -/
theorem sendLoop_filter_count (oracle : Oracle) (to_email : String)
    (max_retries : Nat) (q : String) :
    ∀ (ps : List String) (hm : HealthMap) (lastError : String), ps.Nodup →
      ((sendLoop oracle to_email max_retries ps hm lastError).trace.filter
        (fun r => r.provider = q)).length ≤ max_retries + 1 := by
  intro ps
  induction ps with
  | nil => intro hm lastError _; simp [sendLoop_nil]
  | cons p ps ih =>
    intro hm lastError hnd
    rw [List.nodup_cons] at hnd
    have hskip : ∀ hm2 le2,
        ((sendLoop oracle to_email max_retries ps hm2 le2).trace.filter
          (fun r => r.provider = q)).length ≤ max_retries + 1 :=
      fun hm2 le2 => ih hm2 le2 hnd.2
    by_cases hsu : (healthOf hm p).should_use
    · by_cases hsndr : hasSender p
      · cases ht : (tryProvider oracle to_email p max_retries hm lastError 0
            (max_retries + 1)).result with
        | some res =>
          rw [sendLoop_tried_success oracle to_email max_retries p ps hm lastError
            res hsu hsndr ht]
          calc ((tryProvider oracle to_email p max_retries hm lastError 0
                (max_retries + 1)).trace.filter (fun r => r.provider = q)).length
              ≤ (tryProvider oracle to_email p max_retries hm lastError 0
                (max_retries + 1)).trace.length := List.length_filter_le _ _
            _ ≤ max_retries + 1 := tryProvider_trace_length oracle to_email p
                max_retries (max_retries + 1) hm lastError 0
        | none =>
          rw [sendLoop_tried_fail oracle to_email max_retries p ps hm lastError
            hsu hsndr ht]
          simp only [List.filter_append, List.length_append]
          by_cases hq : q = p
          · subst hq
            have hzero : ((sendLoop oracle to_email max_retries ps
                (tryProvider oracle to_email q max_retries hm lastError 0
                  (max_retries + 1)).health
                (tryProvider oracle to_email q max_retries hm lastError 0
                  (max_retries + 1)).lastError).trace.filter
                (fun r => r.provider = q)).length = 0 := by
              rw [List.length_eq_zero, List.filter_eq_nil_iff]
              intro r hr
              have hmem := sendLoop_trace_mem oracle to_email max_retries ps _ _ r hr
              simp only [decide_eq_true_eq]
              intro heq
              rw [heq] at hmem
              exact hnd.1 hmem
            rw [hzero]
            have h1 : ((tryProvider oracle to_email q max_retries hm lastError 0
                (max_retries + 1)).trace.filter (fun r => r.provider = q)).length
                ≤ max_retries + 1 :=
              le_trans (List.length_filter_le _ _)
                (tryProvider_trace_length oracle to_email q max_retries
                  (max_retries + 1) hm lastError 0)
            omega
          · have hzero : ((tryProvider oracle to_email p max_retries hm lastError 0
                (max_retries + 1)).trace.filter (fun r => r.provider = q)).length
                = 0 := by
              rw [List.length_eq_zero, List.filter_eq_nil_iff]
              intro r hr
              have := tryProvider_trace_provider oracle to_email p max_retries
                (max_retries + 1) hm lastError 0 r hr
              simp only [decide_eq_true_eq]
              intro heq
              exact hq (heq ▸ this ▸ rfl)
            rw [hzero]
            simpa using hskip _ _
      · rw [Bool.not_eq_true] at hsndr
        rw [sendLoop_skip_nosender oracle to_email max_retries p ps hm lastError
          hsu hsndr]
        exact hskip _ _
    · rw [Bool.not_eq_true] at hsu
      rw [sendLoop_skip_unhealthy oracle to_email max_retries p ps hm lastError hsu]
      exact hskip _ _

/-- With at least one iteration in the budget, the retry loop's first trace
record names its provider. -/
theorem tryProvider_trace_head (oracle : Oracle) (to_email provider : String)
    (max_retries : Nat) (n : Nat) (hm : HealthMap) (lastError : String)
    (attempt : Nat) :
    (tryProvider oracle to_email provider max_retries hm lastError attempt
      (n + 1)).trace.head?.map (fun r => r.provider) = some provider := by
  cases ho : oracle provider attempt with
  | ok success info messageId elapsed =>
    cases success
    · simp [tryProvider, ho]
    · simp [tryProvider, ho]
  | exn msg elapsed => simp [tryProvider, ho]

/-- The first attempt of a send goes to the first provider of the trial
order that passes `should_use()` (against the send's entry health) and has a
sender function; if none qualifies, no attempt is made at all. -/
theorem sendLoop_head (oracle : Oracle) (to_email : String) (max_retries : Nat) :
    ∀ (ps : List String) (hm : HealthMap) (lastError : String),
      (sendLoop oracle to_email max_retries ps hm lastError).trace.head?.map
        (fun r => r.provider) = firstEligible hm ps := by
  intro ps
  induction ps with
  | nil => intro hm lastError; simp [sendLoop_nil, firstEligible]
  | cons p ps ih =>
    intro hm lastError
    by_cases hsu : (healthOf hm p).should_use
    · by_cases hsndr : hasSender p
      · have hfe : firstEligible hm (p :: ps) = some p := by
          simp [firstEligible, hsu, hsndr]
        rw [hfe]
        cases ht : (tryProvider oracle to_email p max_retries hm lastError 0
            (max_retries + 1)).result with
        | some res =>
          rw [sendLoop_tried_success oracle to_email max_retries p ps hm lastError
            res hsu hsndr ht]
          exact tryProvider_trace_head oracle to_email p max_retries max_retries
            hm lastError 0
        | none =>
          rw [sendLoop_tried_fail oracle to_email max_retries p ps hm lastError
            hsu hsndr ht]
          have hh := tryProvider_trace_head oracle to_email p max_retries
            max_retries hm lastError 0
          cases htr : (tryProvider oracle to_email p max_retries hm lastError 0
              (max_retries + 1)).trace with
          | nil => rw [htr] at hh; simp at hh
          | cons r rs =>
            rw [htr] at hh
            simp only [List.head?] at hh
            simp only [htr, List.cons_append, List.head?, Option.map]
            exact hh
      · rw [Bool.not_eq_true] at hsndr
        rw [sendLoop_skip_nosender oracle to_email max_retries p ps hm lastError
          hsu hsndr, ih hm lastError]
        simp [firstEligible, hsu, hsndr]
    · rw [Bool.not_eq_true] at hsu
      rw [sendLoop_skip_unhealthy oracle to_email max_retries p ps hm lastError hsu,
        ih hm lastError]
      simp [firstEligible, hsu]

/-- A success result out of the retry loop reports the recipient it was
called for, a `True` success flag, and the provider it was attempting. -/
theorem tryProvider_result_some (oracle : Oracle) (to_email provider : String)
    (max_retries : Nat) :
    ∀ (remaining : Nat) (hm : HealthMap) (lastError : String) (attempt : Nat)
      (res : SendResult),
      (tryProvider oracle to_email provider max_retries hm lastError attempt
        remaining).result = some res →
      res.recipient = to_email ∧ res.success = true ∧ res.provider = provider := by
  intro remaining
  induction remaining with
  | zero => intro hm lastError attempt res h; simp [tryProvider] at h
  | succ n ih =>
    intro hm lastError attempt res h
    cases ho : oracle provider attempt with
    | ok success info messageId elapsed =>
      cases success
      · simp only [tryProvider, ho, Bool.false_eq_true, if_false] at h
        exact ih _ _ _ res h
      · simp only [tryProvider, ho, if_true] at h
        cases h
        exact ⟨rfl, rfl, rfl⟩
    | exn msg elapsed =>
      simp only [tryProvider, ho] at h
      exact ih _ _ _ res h

/-- `send_single` always reports the recipient it was called for. -/
theorem sendLoop_result_recipient (oracle : Oracle) (to_email : String)
    (max_retries : Nat) :
    ∀ (ps : List String) (hm : HealthMap) (lastError : String),
      (sendLoop oracle to_email max_retries ps hm lastError).result.recipient
        = to_email := by
  intro ps
  induction ps with
  | nil => intro hm lastError; simp [sendLoop_nil]
  | cons p ps ih =>
    intro hm lastError
    by_cases hsu : (healthOf hm p).should_use
    · by_cases hsndr : hasSender p
      · cases ht : (tryProvider oracle to_email p max_retries hm lastError 0
            (max_retries + 1)).result with
        | some res =>
          rw [sendLoop_tried_success oracle to_email max_retries p ps hm lastError
            res hsu hsndr ht]
          exact (tryProvider_result_some oracle to_email p max_retries
            (max_retries + 1) hm lastError 0 res ht).1
        | none =>
          rw [sendLoop_tried_fail oracle to_email max_retries p ps hm lastError
            hsu hsndr ht]
          exact ih _ _
      · rw [Bool.not_eq_true] at hsndr
        rw [sendLoop_skip_nosender oracle to_email max_retries p ps hm lastError
          hsu hsndr]
        exact ih _ _
    · rw [Bool.not_eq_true] at hsu
      rw [sendLoop_skip_unhealthy oracle to_email max_retries p ps hm lastError hsu]
      exact ih _ _

/-- `Mailer.send_single` sets `recipient` to the address it was called with. -/
theorem send_single_recipient (m : MailerState) (to_email : String)
    (preferred : Option String) (oracle : Oracle) :
    (send_single m to_email preferred oracle).result.recipient = to_email :=
  sendLoop_result_recipient oracle to_email m.max_retries _ _ _

/-- If every attempt against the head provider fails, that provider
contributes exactly `max_retries + 1` attempt records to the send: failed
attempts — whatever their status code, 429 included — consume the retry
budget. -/
theorem sendLoop_exhaust_first (oracle : Oracle) (to_email : String)
    (max_retries : Nat) (p : String) (ps : List String) (hm : HealthMap)
    (lastError : String)
    (hsu : (healthOf hm p).should_use = true) (hsndr : hasSender p = true)
    (hfail : ∀ a, (oracle p a).isSuccess = false) (hnotin : p ∉ ps) :
    ((sendLoop oracle to_email max_retries (p :: ps) hm lastError).trace.filter
      (fun r => r.provider = p)).length = max_retries + 1 := by
  have hex := tryProvider_exhausts oracle to_email p max_retries hfail
    (max_retries + 1) hm lastError 0
  rw [sendLoop_tried_fail oracle to_email max_retries p ps hm lastError
    hsu hsndr hex.1]
  simp only [List.filter_append, List.length_append]
  have hall : (tryProvider oracle to_email p max_retries hm lastError 0
      (max_retries + 1)).trace.filter (fun r => r.provider = p) =
      (tryProvider oracle to_email p max_retries hm lastError 0
        (max_retries + 1)).trace := by
    rw [List.filter_eq_self]
    intro r hr
    simp only [decide_eq_true_eq]
    exact tryProvider_trace_provider oracle to_email p max_retries
      (max_retries + 1) hm lastError 0 r hr
  have hzero : ((sendLoop oracle to_email max_retries ps
      (tryProvider oracle to_email p max_retries hm lastError 0
        (max_retries + 1)).health
      (tryProvider oracle to_email p max_retries hm lastError 0
        (max_retries + 1)).lastError).trace.filter
      (fun r => r.provider = p)).length = 0 := by
    rw [List.length_eq_zero, List.filter_eq_nil_iff]
    intro r hr
    have hmem := sendLoop_trace_mem oracle to_email max_retries ps _ _ r hr
    simp only [decide_eq_true_eq]
    intro heq
    rw [heq] at hmem
    exact hnotin hmem
  rw [hall, hex.2, hzero]

/-! ### Attempt structure depends only on per-attempt success, not on error
text or status codes -/

theorem should_use_core (h h' : ProviderHealth)
    (hc : healthCore h = healthCore h') : h.should_use = h'.should_use := by
  simp only [healthCore, Prod.mk.injEq] at hc
  obtain ⟨h1, h2, h3, h4, h5⟩ := hc
  simp [ProviderHealth.should_use, ProviderHealth.success_rate, h2, h3, h4, h5]

theorem update_core (h h' : ProviderHealth) (hc : healthCore h = healthCore h')
    (s : Bool) (rt rt' : ℚ) (e e' : String) :
    healthCore (update_provider_health h s rt e) =
      healthCore (update_provider_health h' s rt' e') := by
  simp only [healthCore, Prod.mk.injEq] at hc
  obtain ⟨h1, h2, h3, h4, h5⟩ := hc
  cases s
  · simp [update_provider_health, healthCore, h1, h2, h3, h4, h5]
  · simp [update_provider_health, healthCore, h1, h2, h3, h4, h5]

theorem coreEq_lookup : ∀ (hm hm' : HealthMap), coreEq hm hm' → ∀ p,
    (hm.lookup p).map healthCore = (hm'.lookup p).map healthCore := by
  intro hm
  induction hm with
  | nil =>
    intro hm' h p
    cases hm' with
    | nil => rfl
    | cons e t => simp [coreEq] at h
  | cons e t ih =>
    intro hm' h p
    obtain ⟨k, v⟩ := e
    cases hm' with
    | nil => simp [coreEq] at h
    | cons e2 t2 =>
      obtain ⟨k2, v2⟩ := e2
      simp only [coreEq, List.map_cons, List.cons.injEq, Prod.mk.injEq] at h
      obtain ⟨⟨hk, hc⟩, ht⟩ := h
      subst hk
      simp only [List.lookup]
      cases hkp : p == k
      · simp only [hkp]
        exact ih t2 ht p
      · simp only [hkp]
        simpa using hc

theorem coreEq_healthOf (hm hm' : HealthMap) (h : coreEq hm hm') (p : String) :
    healthCore (healthOf hm p) = healthCore (healthOf hm' p) := by
  have hl := coreEq_lookup hm hm' h p
  unfold healthOf
  cases h1 : hm.lookup p with
  | none =>
    cases h2 : hm'.lookup p with
    | none => simp
    | some v => rw [h1, h2] at hl; simp at hl
  | some v =>
    cases h2 : hm'.lookup p with
    | none => rw [h1, h2] at hl; simp at hl
    | some v2 => rw [h1, h2] at hl; simpa using hl

theorem coreEq_keys (hm hm' : HealthMap) (h : coreEq hm hm') :
    hm.map (fun e => e.1) = hm'.map (fun e => e.1) := by
  have h1 := congrArg (List.map (fun x : String × (String × Bool × Nat × Nat × Nat) => x.1)) h
  simpa [List.map_map, Function.comp] using h1

theorem coreEq_mapUpdate (p : String) (v v' : ProviderHealth)
    (hv : healthCore v = healthCore v') :
    ∀ (hm hm' : HealthMap), coreEq hm hm' →
      coreEq (hm.map (fun e => if e.1 = p then (p, v) else e))
        (hm'.map (fun e => if e.1 = p then (p, v') else e)) := by
  intro hm
  induction hm with
  | nil =>
    intro hm' h
    cases hm' with
    | nil => rfl
    | cons e t => simp [coreEq] at h
  | cons e t ih =>
    intro hm' h
    cases hm' with
    | nil => simp [coreEq] at h
    | cons e2 t2 =>
      simp only [coreEq, List.map_cons, List.cons.injEq, Prod.mk.injEq] at h
      obtain ⟨⟨hk, hc⟩, ht⟩ := h
      have htail := ih t2 ht
      by_cases hep : e.1 = p
      · simp only [coreEq, List.map_cons, hep, hk ▸ hep, if_true]
        exact List.cons.injEq _ _ _ _ ▸ ⟨by simp [hv], htail⟩
      · simp only [coreEq, List.map_cons, hep, hk ▸ hep, if_false]
        simp only [coreEq] at htail
        simp [hk, hc, htail]

theorem coreEq_update (hm hm' : HealthMap) (h : coreEq hm hm') (p : String)
    (s : Bool) (rt rt' : ℚ) (e e' : String) :
    coreEq (updateHealthMap hm p s rt e) (updateHealthMap hm' p s rt' e') := by
  have hv : healthCore (update_provider_health (healthOf hm p) s rt e) =
      healthCore (update_provider_health (healthOf hm' p) s rt' e') :=
    update_core _ _ (coreEq_healthOf hm hm' h p) s rt rt' e e'
  have hany : hm.any (fun x => x.1 = p) = hm'.any (fun x => x.1 = p) := by
    have hk := coreEq_keys hm hm' h
    have hgen : ∀ (l : List (String × ProviderHealth)),
        l.any (fun x => x.1 = p) = (l.map (fun x => x.1)).any (fun k => k = p) := by
      intro l
      induction l with
      | nil => rfl
      | cons a t ih => simp [List.any_cons, ih]
    rw [hgen hm, hgen hm', hk]
  unfold updateHealthMap setHealth
  by_cases hcase : hm.any (fun x => x.1 = p)
  · rw [if_pos hcase, if_pos (hany ▸ hcase)]
    exact coreEq_mapUpdate p _ _ hv hm hm' h
  · rw [if_neg hcase, if_neg (fun hx => hcase (hany ▸ hx))]
    simp only [coreEq, List.map_append, List.map_cons, List.map_nil]
    rw [show (hm.map fun x => (x.1, healthCore x.2)) =
      (hm'.map fun x => (x.1, healthCore x.2)) from h, hv]

/-- The retry loop's attempt trace, whether it found a success, and the
observable core of the resulting health depend only on each attempt's
success flag — not on error strings, status codes, message ids or latency. -/
theorem tryProvider_core (o o2 : Oracle) (provider : String)
    (hsame : ∀ a, (o provider a).isSuccess = (o2 provider a).isSuccess)
    (to_email : String) (max_retries : Nat) :
    ∀ (remaining : Nat) (hm hm2 : HealthMap) (le le2 : String) (attempt : Nat),
      coreEq hm hm2 →
      (tryProvider o to_email provider max_retries hm le attempt remaining).trace
        = (tryProvider o2 to_email provider max_retries hm2 le2 attempt
            remaining).trace ∧
      (tryProvider o to_email provider max_retries hm le attempt
          remaining).result.isSome
        = (tryProvider o2 to_email provider max_retries hm2 le2 attempt
            remaining).result.isSome ∧
      coreEq
        (tryProvider o to_email provider max_retries hm le attempt remaining).health
        (tryProvider o2 to_email provider max_retries hm2 le2 attempt
          remaining).health := by
  intro remaining
  induction remaining with
  | zero =>
    intro hm hm2 le le2 attempt hcore
    exact ⟨rfl, rfl, hcore⟩
  | succ n ih =>
    intro hm hm2 le le2 attempt hcore
    have hsu : (healthOf hm provider).should_use
        = (healthOf hm2 provider).should_use :=
      should_use_core _ _ (coreEq_healthOf hm hm2 hcore provider)
    have hs := hsame attempt
    cases ho : o provider attempt with
    | ok success info messageId elapsed =>
      cases ho2 : o2 provider attempt with
      | ok success2 info2 messageId2 elapsed2 =>
        rw [ho, ho2] at hs
        simp only [AttemptOutcome.isSuccess] at hs
        subst hs
        cases success
        · have hrec := ih (updateHealthMap hm provider false elapsed info)
            (updateHealthMap hm2 provider false elapsed2 info2)
            (provider ++ ": " ++ info) (provider ++ ": " ++ info2) (attempt + 1)
            (coreEq_update hm hm2 hcore provider false elapsed elapsed2 info info2)
          simp only [tryProvider, ho, ho2, Bool.false_eq_true, if_false, hsu]
          exact ⟨by rw [hrec.1], by rw [hrec.2.1], hrec.2.2⟩
        · refine ⟨?_, ?_, ?_⟩
          · simp [tryProvider, ho, ho2, hsu]
          · simp [tryProvider, ho, ho2]
          · simp only [tryProvider, ho, ho2, if_true]
            exact coreEq_update hm hm2 hcore provider true elapsed elapsed2 info info2
      | exn msg2 elapsed2 =>
        rw [ho, ho2] at hs
        simp only [AttemptOutcome.isSuccess] at hs
        subst hs
        have hrec := ih (updateHealthMap hm provider false elapsed info)
          (updateHealthMap hm2 provider false elapsed2 msg2)
          (provider ++ ": " ++ info) (provider ++ ": " ++ msg2) (attempt + 1)
          (coreEq_update hm hm2 hcore provider false elapsed elapsed2 info msg2)
        simp only [tryProvider, ho, ho2, Bool.false_eq_true, if_false, hsu]
        exact ⟨by rw [hrec.1], by rw [hrec.2.1], hrec.2.2⟩
    | exn msg elapsed =>
      cases ho2 : o2 provider attempt with
      | ok success2 info2 messageId2 elapsed2 =>
        rw [ho, ho2] at hs
        simp only [AttemptOutcome.isSuccess] at hs
        rw [Eq.comm] at hs
        subst hs
        have hrec := ih (updateHealthMap hm provider false elapsed msg)
          (updateHealthMap hm2 provider false elapsed2 info2)
          (provider ++ ": " ++ msg) (provider ++ ": " ++ info2) (attempt + 1)
          (coreEq_update hm hm2 hcore provider false elapsed elapsed2 msg info2)
        simp only [tryProvider, ho, ho2, Bool.false_eq_true, if_false, hsu]
        exact ⟨by rw [hrec.1], by rw [hrec.2.1], hrec.2.2⟩
      | exn msg2 elapsed2 =>
        have hrec := ih (updateHealthMap hm provider false elapsed msg)
          (updateHealthMap hm2 provider false elapsed2 msg2)
          (provider ++ ": " ++ msg) (provider ++ ": " ++ msg2) (attempt + 1)
          (coreEq_update hm hm2 hcore provider false elapsed elapsed2 msg msg2)
        simp only [tryProvider, ho, ho2, hsu]
        exact ⟨by rw [hrec.1], by rw [hrec.2.1], hrec.2.2⟩

/-- Lifting of `tryProvider_core` to the whole provider loop. -/
theorem sendLoop_core (o o2 : Oracle)
    (hsame : ∀ p a, (o p a).isSuccess = (o2 p a).isSuccess)
    (to_email : String) (max_retries : Nat) :
    ∀ (ps : List String) (hm hm2 : HealthMap) (le le2 : String),
      coreEq hm hm2 →
      (sendLoop o to_email max_retries ps hm le).trace
        = (sendLoop o2 to_email max_retries ps hm2 le2).trace ∧
      coreEq (sendLoop o to_email max_retries ps hm le).health
        (sendLoop o2 to_email max_retries ps hm2 le2).health := by
  intro ps
  induction ps with
  | nil =>
    intro hm hm2 le le2 hcore
    exact ⟨rfl, hcore⟩
  | cons p ps ih =>
    intro hm hm2 le le2 hcore
    have hsu : (healthOf hm p).should_use = (healthOf hm2 p).should_use :=
      should_use_core _ _ (coreEq_healthOf hm hm2 hcore p)
    have htp := tryProvider_core o o2 p (hsame p) to_email max_retries
      (max_retries + 1) hm hm2 le le2 0 hcore
    by_cases hsup : (healthOf hm p).should_use
    · by_cases hsndr : hasSender p
      · cases ht : (tryProvider o to_email p max_retries hm le 0
            (max_retries + 1)).result with
        | some res =>
          have hts : ∃ res2, (tryProvider o2 to_email p max_retries hm2 le2 0
              (max_retries + 1)).result = some res2 := by
            have := htp.2.1
            rw [ht] at this
            cases h2 : (tryProvider o2 to_email p max_retries hm2 le2 0
                (max_retries + 1)).result with
            | none => rw [h2] at this; simp at this
            | some res2 => exact ⟨res2, rfl⟩
          obtain ⟨res2, ht2⟩ := hts
          rw [sendLoop_tried_success o to_email max_retries p ps hm le res
            hsup hsndr ht,
            sendLoop_tried_success o2 to_email max_retries p ps hm2 le2 res2
            (hsu ▸ hsup) hsndr ht2]
          exact ⟨htp.1, htp.2.2⟩
        | none =>
          have ht2 : (tryProvider o2 to_email p max_retries hm2 le2 0
              (max_retries + 1)).result = none := by
            have := htp.2.1
            rw [ht] at this
            cases h2 : (tryProvider o2 to_email p max_retries hm2 le2 0
                (max_retries + 1)).result with
            | none => rfl
            | some res2 => rw [h2] at this; simp at this
          rw [sendLoop_tried_fail o to_email max_retries p ps hm le hsup hsndr ht,
            sendLoop_tried_fail o2 to_email max_retries p ps hm2 le2
            (hsu ▸ hsup) hsndr ht2]
          have hrest := ih
            (tryProvider o to_email p max_retries hm le 0 (max_retries + 1)).health
            (tryProvider o2 to_email p max_retries hm2 le2 0
              (max_retries + 1)).health
            (tryProvider o to_email p max_retries hm le 0
              (max_retries + 1)).lastError
            (tryProvider o2 to_email p max_retries hm2 le2 0
              (max_retries + 1)).lastError
            htp.2.2
          exact ⟨by rw [htp.1, hrest.1], hrest.2⟩
      · rw [Bool.not_eq_true] at hsndr
        rw [sendLoop_skip_nosender o to_email max_retries p ps hm le hsup hsndr,
          sendLoop_skip_nosender o2 to_email max_retries p ps hm2 le2
          (hsu ▸ hsup) hsndr]
        exact ih hm hm2 le le2 hcore
    · rw [Bool.not_eq_true] at hsup
      rw [sendLoop_skip_unhealthy o to_email max_retries p ps hm le hsup,
        sendLoop_skip_unhealthy o2 to_email max_retries p ps hm2 le2
        (hsu ▸ hsup)]
      exact ih hm hm2 le le2 hcore

/-! ### Lemmas about the bulk path -/

/-- Folding over the fixed-size batches is folding over the recipients:
batching affects progress logging only, not the collected results. -/
theorem batches_foldl {α β : Type} (bs : Nat) (hbs : 0 < bs) (f : β → α → β) :
    ∀ (l : List α) (init : β),
      (batches bs l).foldl (fun acc b => b.foldl f acc) init = l.foldl f init := by
  have key : ∀ (n : Nat) (l : List α), l.length ≤ n → ∀ init : β,
      (batches bs l).foldl (fun acc b => b.foldl f acc) init = l.foldl f init := by
    intro n
    induction n with
    | zero =>
      intro l hl init
      have hnil : l = [] := List.eq_nil_of_length_eq_zero (Nat.le_zero.mp hl)
      subst hnil
      rw [batches.eq_def]
      simp
    | succ n ih =>
      intro l hl init
      rw [batches.eq_def]
      by_cases hc : bs = 0 ∨ l.isEmpty
      · rcases hc with hc | hc
        · omega
        · rw [if_pos (Or.inr hc)]
          rw [List.isEmpty_iff] at hc
          subst hc
          rfl
      · rw [if_neg hc]
        push_neg at hc
        have hne : l ≠ [] := by
          intro hnil
          rw [hnil] at hc
          exact hc.2 rfl
        have hlen : (l.drop bs).length ≤ n := by
          rw [List.length_drop]
          have h0 : 0 < l.length := List.length_pos.mpr hne
          omega
        rw [List.foldl_cons, ih (l.drop bs) hlen, ← List.foldl_append,
          List.take_append_drop]
  exact fun l init => key l.length l (Nat.le_refl _) init

/-- The accumulating fold of `send_bulk` splits the processed results into
the successes (appended to `sent`) and the failures (appended to `failed`). -/
theorem bulk_foldl_spec (outcome : Nat → RecipientOutcome) :
    ∀ (l : List (Nat × Recipient)) (s0 f0 : List SendResult),
      l.foldl (bulkStep outcome) (s0, f0) =
        (s0 ++ (l.map (fun e => processRecipient e.2 (outcome e.1))).filter
          (fun r => r.success),
         f0 ++ (l.map (fun e => processRecipient e.2 (outcome e.1))).filter
          (fun r => !r.success)) := by
  intro l
  induction l with
  | nil => intro s0 f0; simp
  | cons e t ih =>
    intro s0 f0
    simp only [List.foldl_cons, List.map_cons, List.filter_cons]
    by_cases hs : (processRecipient e.2 (outcome e.1)).success
    · simp only [bulkStep, hs, if_true, ih]
      simp [hs, List.append_assoc]
    · rw [Bool.not_eq_true] at hs
      simp only [bulkStep, hs, Bool.false_eq_true, if_false, ih]
      simp [hs, List.append_assoc]

/-- Under the guarantee that each returned `SendResult` names its own
recipient (which `send_single` provides, `send_single_recipient`), the
processed results enumerate exactly the recipients' addresses. -/
theorem enum_map_recipient (outcome : Nat → RecipientOutcome) :
    ∀ (l : List Recipient) (k : Nat),
      (∀ i r, l.get? i = some r → ∀ res, outcome (k + i) = .result res →
        res.recipient = r.email) →
      ((l.enumFrom k).map (fun e => (processRecipient e.2 (outcome e.1)).recipient))
        = l.map (fun r => r.email) := by
  intro l
  induction l with
  | nil => intro k h; rfl
  | cons a t ih =>
    intro k h
    simp only [List.enumFrom_cons, List.map_cons]
    congr 1
    · cases ho : outcome k with
      | result res =>
        have := h 0 a (by simp) res (by rw [Nat.add_zero]; exact ho)
        simp [processRecipient, ho, this]
      | raised msg => simp [processRecipient, ho]
    · exact ih (k + 1) (fun i r hget res hres =>
        h (i + 1) r (by simpa using hget) res
          (by rw [show k + (i + 1) = k + 1 + i by omega]; exact hres))

/-! ### Remaining helper lemmas -/

/-- Three or more consecutive failures force `should_use()` to `False`,
whatever the other fields hold. -/
theorem should_use_false_of_cf (g : ProviderHealth)
    (hg : 3 ≤ g.consecutive_failures) : g.should_use = false := by
  by_cases he : g.enabled
  · simp [ProviderHealth.should_use, he, hg]
  · simp only [Bool.not_eq_true] at he
    simp [ProviderHealth.should_use, he]

/-- A fresh health dictionary holds zero counters for every name. -/
theorem initHealth_fresh (l : List (String × Creds)) (p : String) :
    (healthOf (initHealth l) p).success_count = 0 ∧
    (healthOf (initHealth l) p).failure_count = 0 := by
  unfold healthOf initHealth
  induction l with
  | nil => simp
  | cons e t ih =>
    simp only [List.map_cons, List.lookup]
    cases hk : p == e.1
    · simpa using ih
    · simp

/-- Characterization of `truthy`. -/
theorem truthy_some (o : Option String) (v : String) (h : truthy o = some v) :
    o = some v ∧ v ≠ "" := by
  cases o with
  | none => simp [truthy] at h
  | some s =>
    by_cases hs : s = ""
    · simp [truthy, hs] at h
    · simp only [truthy, hs, if_false] at h
      cases h
      exact ⟨rfl, hs⟩

/-- `send_bulk` with a positive batch size returns the report assembled from
processing every indexed recipient once, in order. -/
theorem send_bulk_eq (recipients : List Recipient)
    (outcome : Nat → RecipientOutcome) (batch_size : Nat) (hbs : 0 < batch_size) :
    send_bulk recipients outcome batch_size = some
      { sent := (recipients.enum.map
          (fun e => processRecipient e.2 (outcome e.1))).filter
            (fun r => r.success),
        failed := (recipients.enum.map
          (fun e => processRecipient e.2 (outcome e.1))).filter
            (fun r => !r.success),
        total := recipients.length,
        success_rate := if recipients.length > 0 then
          ((((recipients.enum.map
            (fun e => processRecipient e.2 (outcome e.1))).filter
              (fun r => r.success)).length : ℚ) / (recipients.length : ℚ)) * 100
          else 0,
        providers_used := (((recipients.enum.map
          (fun e => processRecipient e.2 (outcome e.1))).filter
            (fun r => r.success)).map (fun r => r.provider)).dedup } := by
  have h0 : ¬ batch_size = 0 := by omega
  simp only [send_bulk]
  rw [if_neg h0]
  rw [batches_foldl batch_size hbs (bulkStep outcome) recipients.enum
    (([], []) : List SendResult × List SendResult),
    bulk_foldl_spec outcome recipients.enum [] []]
  simp

/-- Building the final API URL never touches the `enabled` flag. -/
theorem stepUrl_enabled (cfg : ProviderCfg) (c : Creds) :
    (stepUrl cfg c).enabled = c.enabled := by
  cases h1 : cfg.api_url_template with
  | none => cases h2 : c.domain <;> simp [stepUrl, h1, h2]
  | some tmpl => cases h2 : c.domain <;> simp [stepUrl, h1, h2]

/-- If the bundle is still enabled after the `env_key` check, it was enabled
before and an `env_key` requirement, when present, resolved non-empty. -/
theorem stepEnvKey_gate (cfg : ProviderCfg) (env : Env) (c : Creds)
    (h : (stepEnvKey cfg env c).enabled = true) :
    c.enabled = true ∧ ∀ k, cfg.env_key = some k → resolvesNonEmpty env k := by
  cases hek : cfg.env_key with
  | none =>
    simp only [stepEnvKey, hek] at h
    exact ⟨h, fun k hk => by cases hk⟩
  | some k0 =>
    simp only [stepEnvKey, hek] at h
    cases htr : truthy (env k0) with
    | none => simp only [htr] at h; simp at h
    | some v =>
      simp only [htr] at h
      have hv := truthy_some (env k0) v htr
      exact ⟨h, fun k hk => by
        cases hk
        exact ⟨v, hv.1, hv.2⟩⟩

/-- Same for the Mailjet-style key/secret pair. -/
theorem stepKeyPair_gate (cfg : ProviderCfg) (env : Env) (c : Creds)
    (h : (stepKeyPair cfg env c).enabled = true) :
    c.enabled = true ∧ ∀ a b, cfg.api_key_env = some a →
      cfg.api_secret_env = some b →
      resolvesNonEmpty env a ∧ resolvesNonEmpty env b := by
  cases ha : cfg.api_key_env with
  | none =>
    simp only [stepKeyPair, ha] at h
    exact ⟨h, fun a b hka => by cases hka⟩
  | some a0 =>
    cases hb : cfg.api_secret_env with
    | none =>
      simp only [stepKeyPair, ha, hb] at h
      exact ⟨h, fun a b _ hkb => by cases hkb⟩
    | some b0 =>
      simp only [stepKeyPair, ha, hb] at h
      cases hta : truthy (env a0) with
      | none => simp only [hta] at h; simp at h
      | some va =>
        cases htb : truthy (env b0) with
        | none => simp only [hta, htb] at h; simp at h
        | some vb =>
          simp only [hta, htb] at h
          have hva := truthy_some (env a0) va hta
          have hvb := truthy_some (env b0) vb htb
          refine ⟨h, fun a b hka hkb => ?_⟩
          cases hka
          cases hkb
          exact ⟨⟨va, hva.1, hva.2⟩, ⟨vb, hvb.1, hvb.2⟩⟩

/-- Same for the Mailgun-style domain requirement. -/
theorem stepDomain_gate (cfg : ProviderCfg) (env : Env) (c : Creds)
    (h : (stepDomain cfg env c).enabled = true) :
    c.enabled = true ∧ ∀ k, cfg.domain_env = some k → resolvesNonEmpty env k := by
  cases hdk : cfg.domain_env with
  | none =>
    simp only [stepDomain, hdk] at h
    exact ⟨h, fun k hk => by cases hk⟩
  | some k0 =>
    simp only [stepDomain, hdk] at h
    cases htr : truthy (env k0) with
    | none => simp only [htr] at h; simp at h
    | some v =>
      simp only [htr] at h
      have hv := truthy_some (env k0) v htr
      exact ⟨h, fun k hk => by
        cases hk
        exact ⟨v, hv.1, hv.2⟩⟩

/-- Lift of `tryProvider_trace_backoff` to the whole send: every recorded
backoff is the exponential one. -/
theorem sendLoop_backoff (oracle : Oracle) (to_email : String)
    (max_retries : Nat) :
    ∀ (ps : List String) (hm : HealthMap) (lastError : String),
      ∀ r ∈ (sendLoop oracle to_email max_retries ps hm lastError).trace,
        r.backoffSleep = if r.success then none
          else if r.attempt < max_retries then some ((2 : ℚ) ^ r.attempt)
          else none := by
  intro ps
  induction ps with
  | nil => intro hm lastError r hr; simp [sendLoop_nil] at hr
  | cons p ps ih =>
    intro hm lastError r hr
    by_cases hsu : (healthOf hm p).should_use
    · by_cases hsndr : hasSender p
      · cases ht : (tryProvider oracle to_email p max_retries hm lastError 0
            (max_retries + 1)).result with
        | some res =>
          rw [sendLoop_tried_success oracle to_email max_retries p ps hm lastError
            res hsu hsndr ht] at hr
          exact tryProvider_trace_backoff oracle to_email p max_retries
            (max_retries + 1) hm lastError 0 r hr
        | none =>
          rw [sendLoop_tried_fail oracle to_email max_retries p ps hm lastError
            hsu hsndr ht] at hr
          simp only [List.mem_append] at hr
          rcases hr with hr | hr
          · exact tryProvider_trace_backoff oracle to_email p max_retries
              (max_retries + 1) hm lastError 0 r hr
          · exact ih _ _ r hr
      · rw [Bool.not_eq_true] at hsndr
        rw [sendLoop_skip_nosender oracle to_email max_retries p ps hm lastError
          hsu hsndr] at hr
        exact ih _ _ r hr
    · rw [Bool.not_eq_true] at hsu
      rw [sendLoop_skip_unhealthy oracle to_email max_retries p ps hm lastError
        hsu] at hr
      exact ih _ _ r hr

/-! ### Claim theorems -/

/-- **C1, counterexample.**  The claim says `should_use` is re-evaluated on
every attempt and no attempt is made while it is false.  On a fresh
single-provider mailer with `max_retries = 3` and an always-failing sender,
the fourth attempt (index 3) executes although `should_use()` is already
false for Brevo at that moment (its consecutive failures reached 3 after the
third attempt): the guard is only evaluated once per provider, at selection
time. -/
theorem C1_counterexample :
    (send_single mB "a@example.com" none failOracle).trace.map
      (fun r => (r.provider, r.attempt, r.shouldUseAtAttempt)) =
      [("Brevo", 0, true), ("Brevo", 1, true), ("Brevo", 2, true),
       ("Brevo", 3, false)] := by decide

/-- **C1, amended.**  With a duplicate-free trial order, `send_single`
attempts each provider at most `max_retries + 1` times, and the
`should_use` guard holds at the moment each provider is selected (its
attempt 0); the guard is not re-evaluated on the later attempts of the same
provider's retry loop. -/
theorem C1_retry_budget_and_selection_guard (m : MailerState) (to_email : String)
    (preferred : Option String) (oracle : Oracle) (q : String)
    (hnd : (providersToTry m preferred).Nodup) :
    ((send_single m to_email preferred oracle).trace.filter
      (fun r => r.provider = q)).length ≤ m.max_retries + 1 ∧
    ∀ r ∈ (send_single m to_email preferred oracle).trace,
      r.attempt = 0 → r.shouldUseAtAttempt = true :=
  ⟨sendLoop_filter_count oracle to_email m.max_retries q
      (providersToTry m preferred) m.provider_health "" hnd,
   sendLoop_attempt_zero oracle to_email m.max_retries
      (providersToTry m preferred) m.provider_health ""⟩

/-- **C1, witness.** -/
theorem C1_witness :
    ((send_single mB "b@example.com" none failOracle).trace.filter
      (fun r => r.provider = "Brevo")).length ≤ mB.max_retries + 1 ∧
    ∀ r ∈ (send_single mB "b@example.com" none failOracle).trace,
      r.attempt = 0 → r.shouldUseAtAttempt = true :=
  C1_retry_budget_and_selection_guard mB "b@example.com" none failOracle "Brevo"
    (by decide)

/-- **C2, counterexample.**  The claim says a 429 response triggers a
`Retry-After + 5` second sleep (65 s by default) and does not count toward
the provider's retry exhaustion.  Running a single-provider mailer whose
sender always reports HTTP 429: the sleeps are the ordinary exponential
backoff 1 s, 2 s, 4 s — not 65 s — the four 429 attempts consume the whole
`max_retries + 1` budget, and the send ends exhausted with
`provider="all"`. -/
theorem C2_counterexample :
    (send_single mB "a@example.com" none oracle429).trace.map
      (fun r => (r.provider, r.attempt, r.backoffSleep)) =
      [("Brevo", 0, some 1), ("Brevo", 1, some 2), ("Brevo", 2, some 4),
       ("Brevo", 3, none)] ∧
    (send_single mB "a@example.com" none oracle429).result =
      { success := false, provider := "all", recipient := "a@example.com",
        error := "Brevo: 429: Too Many Requests" } := by decide

/-- **C2, amended.**  `send_single` gives HTTP 429 no special treatment: a
failed attempt — whatever its status text, 429 included — is followed by the
ordinary `2^attempt`-second exponential backoff (when retries remain), and
an always-429 provider at the head of a duplicate-free trial order consumes
its entire `max_retries + 1` budget before the loop moves on.  No
`Retry-After`-based sleep exists at this layer. -/
theorem C2_429_no_special_handling (m : MailerState) (to_email : String)
    (preferred : Option String) (oracle : Oracle) (p : String)
    (rest : List String)
    (horder : providersToTry m preferred = p :: rest)
    (hsu : (healthOf m.provider_health p).should_use = true)
    (hsndr : hasSender p = true)
    (hfail : ∀ a, (oracle p a).isSuccess = false)
    (hnotin : p ∉ rest) :
    (∀ r ∈ (send_single m to_email preferred oracle).trace, r.success = false →
      r.backoffSleep =
        if r.attempt < m.max_retries then some ((2 : ℚ) ^ r.attempt) else none) ∧
    ((send_single m to_email preferred oracle).trace.filter
      (fun r => r.provider = p)).length = m.max_retries + 1 := by
  constructor
  · intro r hr hrs
    have hb := sendLoop_backoff oracle to_email m.max_retries
      (providersToTry m preferred) m.provider_health "" r hr
    rw [hb, hrs]
    simp
  · show ((sendLoop oracle to_email m.max_retries (providersToTry m preferred)
      m.provider_health "").trace.filter (fun r => r.provider = p)).length
      = m.max_retries + 1
    rw [horder]
    exact sendLoop_exhaust_first oracle to_email m.max_retries p rest
      m.provider_health "" hsu hsndr hfail hnotin

/-- **C2, witness.** -/
theorem C2_witness :
    (∀ r ∈ (send_single mB "c@example.com" none oracle429).trace,
      r.success = false →
      r.backoffSleep =
        if r.attempt < mB.max_retries then some ((2 : ℚ) ^ r.attempt) else none) ∧
    ((send_single mB "c@example.com" none oracle429).trace.filter
      (fun r => r.provider = "Brevo")).length = mB.max_retries + 1 :=
  C2_429_no_special_handling mB "c@example.com" none oracle429 "Brevo" []
    (by decide) (by decide) (by decide) (fun a => rfl) (by decide)

/-- **C4.**  Once `consecutive_failures` reaches 3, `should_use()` is false;
a recorded failure pushes the counter further up (so the breaker stays
open), a recorded success resets it to 0, and a success is the only update
that can reset it. -/
theorem C4_circuit_breaker (h : ProviderHealth) (rt rt2 : ℚ) (e e2 : String)
    (hcf : 3 ≤ h.consecutive_failures) :
    h.should_use = false ∧
    (update_provider_health h false rt e).consecutive_failures
      = h.consecutive_failures + 1 ∧
    (update_provider_health h false rt e).should_use = false ∧
    (update_provider_health h true rt2 e2).consecutive_failures = 0 ∧
    (∀ s : Bool, (update_provider_health h s rt e).consecutive_failures = 0 →
      s = true) := by
  have hinc : (update_provider_health h false rt e).consecutive_failures
      = h.consecutive_failures + 1 := by
    simp [update_provider_health]
  refine ⟨should_use_false_of_cf h hcf, hinc, ?_, ?_, ?_⟩
  · exact should_use_false_of_cf _ (by omega)
  · simp [update_provider_health]
  · intro s hs
    cases s
    · rw [hinc] at hs; omega
    · rfl

/-- **C4, witness.** -/
theorem C4_witness :
    ({ name := "Brevo", consecutive_failures := 3 } : ProviderHealth).should_use
      = false ∧
    (update_provider_health { name := "Brevo", consecutive_failures := 3 }
      false 0 "err").consecutive_failures
      = ({ name := "Brevo", consecutive_failures := 3 }
          : ProviderHealth).consecutive_failures + 1 ∧
    (update_provider_health { name := "Brevo", consecutive_failures := 3 }
      false 0 "err").should_use = false ∧
    (update_provider_health { name := "Brevo", consecutive_failures := 3 }
      true 1 "ok").consecutive_failures = 0 ∧
    (∀ s : Bool, (update_provider_health
      { name := "Brevo", consecutive_failures := 3 } s 0
      "err").consecutive_failures = 0 → s = true) :=
  C4_circuit_breaker { name := "Brevo", consecutive_failures := 3 } 0 1 "err" "ok"
    (by decide)

/-- **C6, counterexample.**  The claim says a non-429 4xx response abandons
the provider immediately without consuming retries.  With Brevo always
answering HTTP 400 and Postmark healthy, `send_single` still runs all four
Brevo attempts (the full `max_retries + 1` budget) before moving to
Postmark. -/
theorem C6_counterexample :
    (send_single mBP "a@example.com" none oracle400).trace.map
      (fun r => (r.provider, r.attempt)) =
      [("Brevo", 0), ("Brevo", 1), ("Brevo", 2), ("Brevo", 3),
       ("Postmark", 0)] := by decide

/-- **C6, amended.**  `send_single`'s control flow is blind to status codes
and error text: two runs whose attempts have the same per-attempt success
flags produce identical attempt traces (same providers, attempt indices,
guard observations and backoff sleeps), so a 4xx client error is retried
exactly like a 500 or a timeout — there is no early abandonment. -/
theorem C6_client_errors_not_special (m : MailerState) (to_email : String)
    (preferred : Option String) (o o2 : Oracle)
    (hsame : ∀ p a, (o p a).isSuccess = (o2 p a).isSuccess) :
    (send_single m to_email preferred o).trace
      = (send_single m to_email preferred o2).trace :=
  (sendLoop_core o o2 hsame to_email m.max_retries
    (providersToTry m preferred) m.provider_health m.provider_health "" "" rfl).1

/-- **C6, witness.**  A run where Brevo always answers 400 has the same
attempt structure as one where it always answers 500. -/
theorem C6_witness :
    (send_single mBP "a@example.com" none oracle400).trace
      = (send_single mBP "a@example.com" none oracle500B).trace :=
  C6_client_errors_not_special mBP "a@example.com" none oracle400 oracle500B
    (fun p a => by
      by_cases hp : p = "Brevo" <;>
        simp [oracle400, oracle500B, AttemptOutcome.isSuccess, hp])

/-- **C7.**  A provider with no recorded attempts has `success_rate() = 0`
by convention, and `should_use()` collapses to the conjunction of the
`enabled` flag and the circuit-breaker check — the `< 0.5` rate rule cannot
exclude a fresh provider. -/
theorem C7_fresh_provider (h : ProviderHealth)
    (hz : h.success_count + h.failure_count = 0) :
    h.success_rate = 0 ∧
    h.should_use = (h.enabled && decide (h.consecutive_failures < 3)) := by
  constructor
  · simp [ProviderHealth.success_rate, hz]
  · by_cases he : h.enabled
    · by_cases hcf : 3 ≤ h.consecutive_failures
      · rw [should_use_false_of_cf h hcf]
        have hlt : ¬ h.consecutive_failures < 3 := by omega
        simp [he, hlt]
      · have h1 : h.should_use = true := by
          have h10 : ¬ (h.success_count + h.failure_count > 10) := by omega
          simp [ProviderHealth.should_use, he, hcf, h10]
        have hlt : h.consecutive_failures < 3 := by omega
        simp [h1, he, hlt]
    · simp only [Bool.not_eq_true] at he
      have h1 : h.should_use = false := by
        simp [ProviderHealth.should_use, he]
      simp [h1, he]

/-- **C7, witness.** -/
theorem C7_witness :
    ({ name := "SparkPost" } : ProviderHealth).success_rate = 0 ∧
    ({ name := "SparkPost" } : ProviderHealth).should_use
      = (({ name := "SparkPost" } : ProviderHealth).enabled &&
        decide (({ name := "SparkPost" }
          : ProviderHealth).consecutive_failures < 3)) :=
  C7_fresh_provider { name := "SparkPost" } (by decide)

/-- **C10.**  `send_bulk` on an empty recipient list (with a positive batch
size, as in every call site) returns normally: no division by zero, a
report with `total = 0`, `success_rate = 0`, and empty `sent` and `failed`
lists. -/
theorem C10_empty_bulk (outcome : Nat → RecipientOutcome) (bs : Nat)
    (hbs : 0 < bs) :
    send_bulk [] outcome bs = some
      { sent := [], failed := [], total := 0, success_rate := 0,
        providers_used := [] } := by
  rw [send_bulk_eq [] outcome bs hbs]
  rfl

/-- **C10, witness.** -/
theorem C10_witness :
    send_bulk [] (fun _ => .raised "boom") 50 = some
      { sent := [], failed := [], total := 0, success_rate := 0,
        providers_used := [] } :=
  C10_empty_bulk (fun _ => .raised "boom") 50 (by decide)

/-- **C3.**  For any recipient list, any positive batch size, and any mix of
per-recipient outcomes (a success result, a failure result, or an exception
raised before a result existed), `send_bulk` returns a report whose `sent`
and `failed` lists together hold exactly one result per recipient — no
recipient lost or duplicated.  The hypothesis that a returned result names
its own recipient is exactly what `send_single` guarantees
(`send_single_recipient`). -/
theorem C3_bulk_conservation (recipients : List Recipient)
    (outcome : Nat → RecipientOutcome) (batch_size : Nat)
    (hbs : 0 < batch_size)
    (hrec : ∀ i r, recipients.get? i = some r → ∀ res,
      outcome i = .result res → res.recipient = r.email) :
    ∃ report, send_bulk recipients outcome batch_size = some report ∧
      report.sent.length + report.failed.length = recipients.length ∧
      ((report.sent ++ report.failed).map (fun x => x.recipient)).Perm
        (recipients.map (fun r => r.email)) := by
  refine ⟨_, send_bulk_eq recipients outcome batch_size hbs, ?_, ?_⟩
  · have hlen : (recipients.enum.map
        (fun e => processRecipient e.2 (outcome e.1))).length
        = recipients.length := by
      simp [List.enum_length]
    have h2 := @List.length_eq_length_filter_add SendResult
      (recipients.enum.map (fun e => processRecipient e.2 (outcome e.1)))
      (fun r => r.success)
    simp only at h2 ⊢
    omega
  · have hperm := List.filter_append_perm (fun r : SendResult => r.success)
      (recipients.enum.map (fun e => processRecipient e.2 (outcome e.1)))
    have hmap := hperm.map (fun x : SendResult => x.recipient)
    have hproc : (recipients.enum.map
        (fun e => processRecipient e.2 (outcome e.1))).map
          (fun x => x.recipient)
        = recipients.map (fun r => r.email) := by
      rw [List.map_map]
      have hfrom := enum_map_recipient outcome recipients 0
        (fun i r hget res hres =>
          hrec i r hget res (by rwa [Nat.zero_add] at hres))
      simpa [Function.comp] using hfrom
    rw [← hproc]
    exact hmap

/-- **C3, witness.** -/
theorem C3_witness :
    ∃ report, send_bulk
      [{ email := "a@x.com" }, { email := "b@x.com" }, { email := "c@x.com" }]
      (fun _ => .raised "boom") 2 = some report ∧
      report.sent.length + report.failed.length =
        ([{ email := "a@x.com" }, { email := "b@x.com" },
          { email := "c@x.com" }] : List Recipient).length ∧
      ((report.sent ++ report.failed).map (fun x => x.recipient)).Perm
        (([{ email := "a@x.com" }, { email := "b@x.com" },
          { email := "c@x.com" }] : List Recipient).map (fun r => r.email)) :=
  C3_bulk_conservation
    [{ email := "a@x.com" }, { email := "b@x.com" }, { email := "c@x.com" }]
    (fun _ => .raised "boom") 2 (by decide)
    (fun i r hget res hres => RecipientOutcome.noConfusion hres)

/-- **C5, counterexample.**  The claim says the trial order is recomputed
from live success rates at each send.  After ten successful sends through
Postmark, the adjusted-priority formula over the *live* health puts
Postmark (2 − 1×10 = −8) ahead of Brevo (1 − 0×10 = 1); yet the next send
still tries Brevo first, because `send_single` walks the `providers_order`
cached at construction, which is never re-sorted. -/
theorem C5_counterexample :
    get_priority_order mBP10.providers mBP10.provider_health
      = ["Postmark", "Brevo"] ∧
    mBP10.providers_order = ["Brevo", "Postmark"] ∧
    (send_single mBP10 "b@example.com" none okOracle).trace.map
      (fun r => r.provider) = ["Brevo"] := by decide

/-- **C5, amended.**  The trial order is computed once, at mailer
construction, by the adjusted-priority sort over the *fresh* health
dictionary — whose success rates are all 0, so the sort degenerates to the
static priorities; at send time `send_single` only walks that cached order,
re-filtering by `should_use` (the first attempt goes to the first cached
provider passing the guard), and never re-sorts by live success rate. -/
theorem C5_order_cached_at_construction (env : Env) (mr : Nat) (p : String)
    (m : MailerState) (to_email : String) (oracle : Oracle) :
    (mkMailer env mr).providers_order
      = get_priority_order (load_providers env) (initHealth (load_providers env)) ∧
    (healthOf (initHealth (load_providers env)) p).success_rate = 0 ∧
    (send_single m to_email none oracle).trace.head?.map (fun r => r.provider)
      = firstEligible m.provider_health m.providers_order := by
  refine ⟨rfl, ?_, ?_⟩
  · have hf := initHealth_fresh (load_providers env) p
    simp [ProviderHealth.success_rate, hf.1, hf.2]
  · exact sendLoop_head oracle to_email m.max_retries m.providers_order
      m.provider_health ""

/-- **C8, counterexample.**  The claim says an empty provider set surfaces
as an explicit precondition failure distinct from an ordinary delivery
failure.  With nothing configured, `send_single` returns the very same kind
of value as an ordinary exhausted send — a failure `SendResult` tagged
`provider="all"` (with empty error text) — and `send_bulk` files each
recipient under `failed` in a normal report.  Nothing distinct is raised or
returned. -/
theorem C8_counterexample :
    mNone.providers_order = [] ∧
    (send_single mNone "a@example.com" none okOracle).result =
      { success := false, provider := "all", recipient := "a@example.com" } ∧
    send_bulk [{ email := "a@example.com" }]
      (fun _ => .result (send_single mNone "a@example.com" none okOracle).result)
      50 = some
      { sent := [],
        failed := [{ success := false, provider := "all",
                     recipient := "a@example.com" }],
        total := 1, success_rate := 0, providers_used := [] } := by
  refine ⟨by decide, by decide, ?_⟩
  rw [send_bulk_eq [{ email := "a@example.com" }]
    (fun _ => .result (send_single mNone "a@example.com" none okOracle).result)
    50 (by decide)]
  decide

/-- **C8, amended.**  When the trial order is empty (zero providers
available), `send_single` returns the ordinary `provider="all"` failure
`SendResult` with empty error text — the same shape as provider exhaustion —
and `send_bulk` over outcomes that are all failures returns a normal report
listing every recipient under `failed`; no distinct precondition failure
exists. -/
theorem C8_zero_providers_ordinary_failure (m : MailerState) (to_email : String)
    (preferred : Option String) (oracle : Oracle)
    (hempty : providersToTry m preferred = []) :
    (send_single m to_email preferred oracle).result =
      { success := false, provider := "all", recipient := to_email } ∧
    ∀ (recipients : List Recipient) (outcome : Nat → RecipientOutcome)
      (bs : Nat), 0 < bs →
      (∀ i res, outcome i = .result res → res.success = false) →
      ∃ report, send_bulk recipients outcome bs = some report ∧
        report.sent = [] ∧ report.failed.length = recipients.length := by
  constructor
  · show (sendLoop oracle to_email m.max_retries (providersToTry m preferred)
      m.provider_health "").result = _
    rw [hempty, sendLoop_nil]
  · intro recipients outcome bs hbs hfailres
    have hallfail : ∀ e : Nat × Recipient,
        (processRecipient e.2 (outcome e.1)).success = false := by
      intro e
      cases ho : outcome e.1 with
      | result res =>
        simp only [processRecipient, ho]
        exact hfailres e.1 res ho
      | raised msg => simp [processRecipient, ho]
    refine ⟨_, send_bulk_eq recipients outcome bs hbs, ?_, ?_⟩
    · rw [List.filter_eq_nil_iff]
      intro r hr
      rw [List.mem_map] at hr
      obtain ⟨e, _, he⟩ := hr
      rw [← he]
      simp [hallfail e]
    · have hself : (recipients.enum.map
          (fun e => processRecipient e.2 (outcome e.1))).filter
          (fun r => !r.success)
          = recipients.enum.map (fun e => processRecipient e.2 (outcome e.1)) := by
        rw [List.filter_eq_self]
        intro r hr
        rw [List.mem_map] at hr
        obtain ⟨e, _, he⟩ := hr
        rw [← he]
        simp [hallfail e]
      rw [hself]
      simp [List.enum_length]

/-- **C8, witness.** -/
theorem C8_witness :
    (send_single mNone "z@example.com" none okOracle).result =
      { success := false, provider := "all", recipient := "z@example.com" } ∧
    ∀ (recipients : List Recipient) (outcome : Nat → RecipientOutcome)
      (bs : Nat), 0 < bs →
      (∀ i res, outcome i = .result res → res.success = false) →
      ∃ report, send_bulk recipients outcome bs = some report ∧
        report.sent = [] ∧ report.failed.length = recipients.length :=
  C8_zero_providers_ordinary_failure mNone "z@example.com" none okOracle
    (by decide)

/-- **C9.**  The credential resolver never raises — the one genuine raise
point (the SMTP port `int()` conversion) is caught and converted into a
bundle with `enabled = False` — and a bundle comes back `enabled = True`
only if every environment key the provider's config gates on resolved to a
non-empty value. -/
theorem C9_resolver_never_raises_and_gates (name : String) (cfg : ProviderCfg)
    (env : Env) :
    ((resolve_creds name cfg env).enabled = true →
      ∀ k ∈ requiredEnvKeys cfg, resolvesNonEmpty env k) ∧
    (∀ msg, credsBody name cfg env = .error msg →
      (resolve_creds name cfg env).enabled = false) := by
  constructor
  · intro hen k hk
    by_cases hapi : cfg.type = "api"
    · have hbody : credsBody name cfg env = .ok (stepUrl cfg (stepDomain cfg env
          (stepKeyPair cfg env (stepEnvKey cfg env
            { name := name, type := cfg.type, priority := cfg.priority,
              enabled := true })))) := by
        simp only [credsBody]
        rw [if_pos hapi]
      have hres : resolve_creds name cfg env = stepUrl cfg (stepDomain cfg env
          (stepKeyPair cfg env (stepEnvKey cfg env
            { name := name, type := cfg.type, priority := cfg.priority,
              enabled := true }))) := by
        unfold resolve_creds
        simp only [hbody]
      rw [hres, stepUrl_enabled] at hen
      have hdom := stepDomain_gate cfg env _ hen
      have hpair := stepKeyPair_gate cfg env _ hdom.1
      have hkey := stepEnvKey_gate cfg env _ hpair.1
      simp only [requiredEnvKeys] at hk
      rw [if_pos hapi] at hk
      rw [List.mem_append, List.mem_append] at hk
      rcases hk with (hk | hk) | hk
      · rw [Option.mem_toList, Option.mem_def] at hk
        exact hkey.2 k hk
      · cases ha : cfg.api_key_env with
        | none => rw [ha] at hk; simp at hk
        | some a0 =>
          cases hb : cfg.api_secret_env with
          | none => rw [ha, hb] at hk; simp at hk
          | some b0 =>
            rw [ha, hb] at hk
            simp only [List.mem_cons, List.not_mem_nil, or_false] at hk
            rcases hk with hk | hk
            · subst hk
              exact (hpair.2 k b0 ha hb).1
            · subst hk
              exact (hpair.2 a0 k ha hb).2
      · rw [Option.mem_toList, Option.mem_def] at hk
        exact hdom.2 k hk
    · by_cases hsmtp : cfg.type = "smtp"
      · have hu : credsBody name cfg env =
            (match env (cfg.port_env.getD "587") with
            | none => Except.error "TypeError: int() argument is None"
            | some ps =>
              match parsePyInt ps with
              | none => Except.error "ValueError: invalid literal for int()"
              | some port =>
                match truthy (env (cfg.host_env.getD "")),
                    truthy (env (cfg.user_env.getD "")),
                    truthy (env (cfg.pass_env.getD "")) with
                | some h, some u, some pw =>
                  Except.ok { name := name, type := cfg.type,
                              priority := cfg.priority, enabled := true,
                              host := some h, port := some port, user := some u,
                              password := some pw }
                | _, _, _ =>
                  Except.ok { name := name, type := cfg.type,
                              priority := cfg.priority,
                              enabled := false }) := by
          simp only [credsBody]
          rw [if_neg hapi, if_pos hsmtp]
        cases hport : env (cfg.port_env.getD "587") with
        | none =>
          simp only [hport] at hu
          have : (resolve_creds name cfg env).enabled = false := by
            unfold resolve_creds
            simp only [hu]
          rw [hen] at this
          cases this
        | some ps =>
          simp only [hport] at hu
          cases hparse : parsePyInt ps with
          | none =>
            simp only [hparse] at hu
            have : (resolve_creds name cfg env).enabled = false := by
              unfold resolve_creds
              simp only [hu]
            rw [hen] at this
            cases this
          | some port =>
            simp only [hparse] at hu
            cases hh : truthy (env (cfg.host_env.getD "")) with
            | none =>
              simp only [hh] at hu
              have : (resolve_creds name cfg env).enabled = false := by
                unfold resolve_creds
                simp only [hu]
              rw [hen] at this
              cases this
            | some hostv =>
              cases hus : truthy (env (cfg.user_env.getD "")) with
              | none =>
                simp only [hh, hus] at hu
                have : (resolve_creds name cfg env).enabled = false := by
                  unfold resolve_creds
                  simp only [hu]
                rw [hen] at this
                cases this
              | some userv =>
                cases hp : truthy (env (cfg.pass_env.getD "")) with
                | none =>
                  simp only [hh, hus, hp] at hu
                  have : (resolve_creds name cfg env).enabled = false := by
                    unfold resolve_creds
                    simp only [hu]
                  rw [hen] at this
                  cases this
                | some passv =>
                  simp only [requiredEnvKeys] at hk
                  rw [if_neg hapi, if_pos hsmtp] at hk
                  simp only [List.mem_cons, List.mem_singleton,
                    List.not_mem_nil, or_false] at hk
                  rcases hk with hk | hk | hk
                  · subst hk
                    obtain ⟨he, hne⟩ := truthy_some _ hostv hh
                    exact ⟨hostv, he, hne⟩
                  · subst hk
                    obtain ⟨he, hne⟩ := truthy_some _ userv hus
                    exact ⟨userv, he, hne⟩
                  · subst hk
                    obtain ⟨he, hne⟩ := truthy_some _ passv hp
                    exact ⟨passv, he, hne⟩
      · simp only [requiredEnvKeys] at hk
        rw [if_neg hapi, if_neg hsmtp] at hk
        cases hk
  · intro msg hmsg
    unfold resolve_creds
    simp only [hmsg]

/-- **C9, witness.**  Mailgun resolved against an environment holding its
API key and domain: the enabled bundle certifies both keys non-empty. -/
theorem C9_witness :
    resolvesNonEmpty envM "MAILGUN_API_KEY" ∧
    resolvesNonEmpty envM "MAILGUN_DOMAIN" :=
  ⟨(C9_resolver_never_raises_and_gates "Mailgun" mailgunCfg envM).1 (by decide)
      "MAILGUN_API_KEY" (by decide),
   (C9_resolver_never_raises_and_gates "Mailgun" mailgunCfg envM).1 (by decide)
      "MAILGUN_DOMAIN" (by decide)⟩
